import Mathlib

/-!
Verification development for the ADORAG repository.

This file gives a shallow embedding, in Lean 4, of the two core components of
the repository: the incremental synchronization engine (`src/sync_service.py`
together with its collaborators `src/ado_service.py`, `src/embedding_service.py`
and `src/search_service.py`) and the query orchestrator (`src/rag_service.py`).
External services (the Azure DevOps API, the embedding API, the Azure AI Search
index and the chat completion client) are modelled as oracle functions supplied
through environment records; every piece of logic that lives in the repository
itself is translated directly from the Python source.

Timestamps are modelled as natural numbers (seconds); the calendar-day
truncation performed by `strftime("%Y-%m-%d")` is modelled by integer division
by 86400.  Python float percentage arithmetic `int((a / b) * c)` is modelled by
natural division `a * c / b`; no theorem below depends on the exact rounding.
Embedding vectors are `List Float`, as in the source.
-/

/-! ### Generic helpers -/

/-- Slicing a list into consecutive chunks of size `n`, mirroring the Python
idiom `for i in range(0, len(l), n): l[i:i+n]` (used with `n ≥ 1`). -/
def chunks (n : Nat) : List α → List (List α)
  | [] => []
  | x :: xs => (x :: xs.take (n - 1)) :: chunks n (xs.drop (n - 1))
termination_by l => l.length
decreasing_by
  simp only [List.length_drop, List.length_cons]
  omega

theorem chunks_join (n : Nat) : ∀ l : List α, (chunks n l).flatten = l
  | [] => by simp [chunks]
  | x :: xs => by
    rw [chunks]
    simp only [List.flatten_cons]
    rw [List.cons_append, chunks_join n (xs.drop (n - 1)), List.take_append_drop]
termination_by l => l.length
decreasing_by
  simp only [List.length_drop, List.length_cons]
  omega

/-- Joining a list of strings with a separator, mirroring Python's
`sep.join(parts)`. -/
def joinSep (sep : String) : List String → String
  | [] => ""
  | [s] => s
  | s :: rest => s ++ sep ++ joinSep sep rest

/-- Substring containment between strings (Python's `needle in haystack`),
expressed through list infixes on the underlying character lists. -/
def strContains (haystack needle : String) : Bool :=
  decide (needle.toList <:+: haystack.toList)

theorem string_toList_append (a b : String) : (a ++ b).toList = a.toList ++ b.toList := rfl

/-- Any part of a joined list is a substring of the join. -/
theorem infix_joinSep (sep : String) : ∀ parts : List String, ∀ p ∈ parts,
    p.toList <:+: (joinSep sep parts).toList
  | [], p, hp => absurd hp (List.not_mem_nil p)
  | [s], p, hp => by
      rcases List.mem_singleton.1 hp with rfl
      exact List.infix_rfl
  | s :: s' :: rest, p, hp => by
      rcases List.mem_cons.1 hp with rfl | hp'
      · show p.toList <:+: (p ++ sep ++ joinSep sep (s' :: rest)).toList
        rw [string_toList_append, string_toList_append]
        exact ((List.prefix_append _ _).trans (List.prefix_append _ _)).isInfix
      · have ih := infix_joinSep sep (s' :: rest) p hp'
        show p.toList <:+: (s ++ sep ++ joinSep sep (s' :: rest)).toList
        rw [string_toList_append, string_toList_append]
        exact ih.trans (List.suffix_append _ _).isInfix

/-- Python's `str.lower()` (character-wise lowering). -/
def pyLower (s : String) : String := String.mk (s.toList.map Char.toLower)

/-- Python's `str.strip()`: remove leading and trailing whitespace. -/
def pyStrip (s : String) : String :=
  String.mk (((s.toList.dropWhile Char.isWhitespace).reverse.dropWhile
    Char.isWhitespace).reverse)

/-- Python's `str.startswith(pre)`. -/
def pyStartsWith (pre s : String) : Bool := pre.toList.isPrefixOf s.toList

def digitsToNat : List Char → Nat → Nat
  | [], acc => acc
  | c :: rest, acc => digitsToNat rest (acc * 10 + (c.toNat - 48))

/-- Python's `int(s)` restricted to decimal digit strings (the only shape the
work-item keys take); any other string yields `none`. -/
def pyToNat (s : String) : Option Nat :=
  let cs := s.toList
  if cs.isEmpty then none
  else if cs.all Char.isDigit then some (digitsToNat cs 0) else none

/-- Order-preserving deduplication keeping the first occurrence of each
element, mirroring Python's `list(dict.fromkeys(l))`. -/
def dedupKeepFirstAux [DecidableEq α] (seen : List α) : List α → List α
  | [] => []
  | x :: xs => if x ∈ seen then dedupKeepFirstAux seen xs else x :: dedupKeepFirstAux (x :: seen) xs

def dedupKeepFirst [DecidableEq α] (l : List α) : List α := dedupKeepFirstAux [] l

/-! ### Work items (`ado_service.py`, `_extract_work_item_data`)

Only the fields the synchronization engine reads are modelled; `changed_date`
is the `System.ChangedDate` timestamp (`Option` because the extractor reads it
with `fields.get`), and `content` is the concatenated text the engine embeds. -/

structure WorkItem where
  id : String
  work_item_id : String
  content : String
  changed_date : Option Nat
deriving DecidableEq, Repr

/-- Day truncation of a timestamp, modelling `strftime("%Y-%m-%d")` followed by
WIQL's date-only comparison. -/
def dayOf (t : Nat) : Nat := t / 86400

/-- Predicate applied by the WIQL query in `fetch_work_items` during a delta
sync: `[System.ChangedDate] >= 'YYYY-MM-DD'` at day granularity.  An item whose
changed date is missing fails the WIQL comparison. -/
def wiqlDayPred (t : Nat) (it : WorkItem) : Bool :=
  match it.changed_date with
  | some c => dayOf t ≤ dayOf c
  | none => false

/-- Client-side re-filter in `fetch_work_items` (lines 95-116): during a delta
sync an item with a changed date is kept only when it is strictly newer than
`last_sync_time`; an item with no changed date is kept. -/
def clientExactPred (t : Nat) (it : WorkItem) : Bool :=
  match it.changed_date with
  | some c => decide (t < c)
  | none => true

/-- Model of `ADOConnector.fetch_work_items`: `source` stands for the project's
work-item collection as returned by the tracker.  With `last_sync_time` set the
WIQL query selects at day granularity and the results are re-filtered at exact
timestamp granularity; otherwise every item is returned (full sync).  The
batched detail fetch (batch size 200) concatenates its batches back in order
and is not reflected in the result; the WIQL ORDER BY clause affects only the
order of the result, so the model keeps the source order and the properties
below are stated through membership. -/
def fetch_work_items (source : List WorkItem) (last_sync_time : Option Nat) : List WorkItem :=
  match last_sync_time with
  | some t => ((source.filter (wiqlDayPred t)).filter (clientExactPred t))
  | none => source

/-! ### Embedding service (`embedding_service.py`)

The Azure OpenAI embeddings endpoint and the tiktoken tokenizer are external;
they enter as the oracle `api` (returning `none` when the request raises) and
the function `truncate` (modelling `_truncate_text`).  The hardcoded expected
embedding dimension of the service is 1536. -/

def expectedEmbeddingDim : Nat := 1536

/-- Zero vector substituted for a failed batch (`[[0.0] * 1536] * len(batch)`). -/
def zeroVec : List Float := List.replicate expectedEmbeddingDim 0.0

/-- Model of `EmbeddingService.generate_embeddings_batch`: texts are processed
in API batches; each batch is truncated and sent to the API; on failure the
batch is replaced by zero vectors of the expected dimension and processing
continues. -/
def generate_embeddings_batch (api : List String → Option (List (List Float)))
    (truncate : String → String) (texts : List String) (batch_size : Nat) :
    List (List Float) :=
  if texts.isEmpty then []
  else
    (chunks batch_size texts).foldl
      (fun acc batch =>
        let batch' := batch.map truncate
        match api batch' with
        | some embs => acc ++ embs
        | none => acc ++ List.replicate batch.length zeroVec)
      []

/-- Per-batch contribution of `generate_embeddings_batch`, used to state its
order-preserving zero-substitution behaviour. -/
def embedBatchResult (api : List String → Option (List (List Float)))
    (truncate : String → String) (batch : List String) : List (List Float) :=
  match api (batch.map truncate) with
  | some embs => embs
  | none => List.replicate batch.length zeroVec

theorem generate_embeddings_batch_eq_flatMap (api : List String → Option (List (List Float)))
    (truncate : String → String) (texts : List String) (batch_size : Nat) :
    generate_embeddings_batch api truncate texts batch_size
      = (chunks batch_size texts).flatMap (embedBatchResult api truncate) := by
  unfold generate_embeddings_batch
  by_cases h : texts.isEmpty
  · have : texts = [] := List.isEmpty_iff.1 h
    subst this
    simp [chunks]
  · simp only [h, if_false]
    suffices H : ∀ (bs : List (List String)) (acc : List (List Float)),
        bs.foldl (fun acc batch =>
          let batch' := batch.map truncate
          match api batch' with
          | some embs => acc ++ embs
          | none => acc ++ List.replicate batch.length zeroVec) acc
        = acc ++ bs.flatMap (embedBatchResult api truncate) by
      simpa using H (chunks batch_size texts) []
    intro bs
    induction bs with
    | nil => intro acc; simp
    | cons b bs ih =>
      intro acc
      simp only [List.foldl_cons, List.flatMap_cons, ih]
      unfold embedBatchResult
      cases api (b.map truncate) <;> simp

theorem generate_embeddings_batch_length (api : List String → Option (List (List Float)))
    (truncate : String → String) (texts : List String) (batch_size : Nat)
    (hapi : ∀ b e, api b = some e → e.length = b.length) :
    (generate_embeddings_batch api truncate texts batch_size).length = texts.length := by
  rw [generate_embeddings_batch_eq_flatMap]
  have hlen : ∀ b : List String, (embedBatchResult api truncate b).length = b.length := by
    intro b
    unfold embedBatchResult
    cases hb : api (b.map truncate) with
    | none => simp
    | some e => simpa using (hapi _ e hb).trans (List.length_map _ _)
  calc ((chunks batch_size texts).flatMap (embedBatchResult api truncate)).length
      = ((chunks batch_size texts).map (embedBatchResult api truncate)).flatten.length := by
        rw [List.flatMap]
    _ = texts.length := by
        rw [List.length_flatten]
        simp only [List.map_map]
        have : ((chunks batch_size texts).map (Function.comp List.length (embedBatchResult api truncate)))
            = (chunks batch_size texts).map List.length := by
          exact List.map_congr_left (fun b _ => hlen b)
        rw [this, ← List.length_flatten, chunks_join]

/-! ### Index store documents and the metadata record (`search_service.py`)

A document of the Azure AI Search index.  String content fields are modelled
as plain strings; `is_metadata` is an `Option Bool` so that the OData `null`
state of documents indexed without the flag is representable; the
metadata-only fields are optional.  The stored `content_vector` (a dummy zero
vector on the metadata record) is omitted, since no claim concerns stored
vectors. -/

structure Doc where
  id : String
  work_item_id : String
  title : String := ""
  description : String := ""
  work_item_type : String := ""
  state : String := ""
  assigned_to : String := ""
  tags : String := ""
  project_name : String := ""
  created_date : String := ""
  changed_date : String := ""
  work_item_url : String := ""
  content : String := ""
  is_metadata : Option Bool := none
  last_sync_time : Option Nat := none
  work_item_count : Option Nat := none
  priority : Option String := none
  severity : Option String := none
  acceptance_criteria : Option String := none
  repro_steps : Option String := none
deriving DecidableEq, Repr

/-- An OData filter expression, carried as the exact string the Python code
builds (`render`) paired with its evaluation semantics over documents. -/
structure Filt where
  render : String
  eval : Doc → Bool

/-- Base predicate excluding the metadata record, built in
`rag_service.py` line 98 and `search_service.py` lines 414 and 457. -/
def baseFilt : Filt :=
  { render := "is_metadata eq false or is_metadata eq null"
    eval := fun d => d.is_metadata == some false || d.is_metadata == none }

/-- Conjunction as built by `f"({a}) and ({b})"`. -/
def Filt.andF (a b : Filt) : Filt :=
  { render := "(" ++ a.render ++ ") and (" ++ b.render ++ ")"
    eval := fun d => a.eval d && b.eval d }

/-- Reserved key of the singleton sync metadata record
(`SearchIndexManager.METADATA_DOC_ID`). -/
def METADATA_DOC_ID : String := "sync-metadata"

/-- The document written by `SearchIndexManager.update_sync_metadata`
(lines 255-289), field for field. -/
def syncMetadataDoc (last_sync_time : Nat) (count : Nat) : Doc :=
  { id := METADATA_DOC_ID
    is_metadata := some true
    last_sync_time := some last_sync_time
    work_item_count := some count
    work_item_id := METADATA_DOC_ID
    title := "Sync Metadata"
    description := "Internal metadata document"
    work_item_type := "Metadata"
    state := "Active"
    assigned_to := ""
    tags := ""
    created_date := ""
    changed_date := ""
    project_name := "System"
    work_item_url := ""
    content := "" }

/-- Upsert of one document into a key-addressed store: the document replaces
an existing document with the same key, otherwise it is appended. -/
def upsertOne (store : List Doc) (d : Doc) : List Doc :=
  if store.any (fun x => x.id == d.id) then
    store.map (fun x => if x.id == d.id then d else x)
  else store ++ [d]

/-- Model of `SearchIndexManager.update_sync_metadata` acting on a store. -/
def update_sync_metadata (store : List Doc) (last_sync_time : Nat) (count : Nat) : List Doc :=
  upsertOne store (syncMetadataDoc last_sync_time count)

/-- Model of `SearchIndexManager.get_work_item_count`: a count request with
the base predicate excluding metadata records. -/
def get_work_item_count (store : List Doc) : Nat :=
  (store.filter baseFilt.eval).length

/-! ### Sync engine (`sync_service.py`, `SyncManager.sync`)

The engine is modelled as a pure function from an environment of collaborator
responses to the returned pair together with two observation traces: the
sequence of collaborator operations (`Op`) and the sequence of progress
callback invocations.  A callback invocation is recorded as the literal
argument list passed to `progress_callback`, so that the arity of the call
sites (`progress_callback(step, current, total, message)`) is part of the
model.  The callback itself returns nothing and no return value is read. -/

inductive CbArg where
  | str (s : String)
  | nat (n : Nat)
deriving DecidableEq, Repr

/-- Argument list of one `progress_callback(step, current, total, message)`
invocation, exactly as written at every call site of `SyncManager.sync`. -/
def mkCall (step : String) (current total : Nat) (message : String) : List CbArg :=
  [CbArg.str step, CbArg.nat current, CbArg.nat total, CbArg.str message]

/-- Emit a callback invocation only when a callback was supplied, modelling
the `if progress_callback:` guards. -/
def cbIf (hasCb : Bool) (call : List CbArg) : List (List CbArg) :=
  if hasCb then [call] else []

/-- A work item with the embedding attached by the loop
`for item, embedding in zip(batch, embeddings): item["content_vector"] = ...`;
items beyond the end of the embeddings list keep no vector. -/
structure DocWithVec where
  item : WorkItem
  content_vector : Option (List Float)

/-- Attaching embeddings to the items of a batch positionally (`zip` mutates
only the first `min` items; the whole batch is upserted regardless). -/
def attachVectors : List WorkItem → List (List Float) → List DocWithVec
  | [], _ => []
  | it :: its, [] => ⟨it, none⟩ :: attachVectors its []
  | it :: its, v :: vs => ⟨it, some v⟩ :: attachVectors its vs

theorem attachVectors_items : ∀ (b : List WorkItem) (e : List (List Float)),
    (attachVectors b e).map DocWithVec.item = b
  | [], _ => by cases ‹List (List Float)› <;> rfl
  | it :: its, [] => by simp [attachVectors, attachVectors_items its []]
  | it :: its, v :: vs => by simp [attachVectors, attachVectors_items its vs]

theorem attachVectors_isSome : ∀ (b : List WorkItem) (e : List (List Float)),
    b.length ≤ e.length → ∀ d ∈ attachVectors b e, d.content_vector.isSome
  | [], _, _, d, hd => by cases ‹List (List Float)› <;> simp [attachVectors] at hd
  | it :: its, [], h, d, hd => by simp at h
  | it :: its, v :: vs, h, d, hd => by
      simp only [attachVectors, List.mem_cons] at hd
      rcases hd with rfl | hd
      · rfl
      · exact attachVectors_isSome its vs (by simpa using h) d hd

/-- Observable operations against the collaborators (Item Source, Vectorizer,
Index Store), in the order the engine performs them. -/
inductive Op where
  | checkIndexExists
  | createIndex
  | readSyncMetadata
  | fetchItems (last_sync_time : Option Nat)
  | embedApiCall (texts : List String)
  | upsertDocs (docs : List DocWithVec)
  | fetchSourceIds
  | fetchIndexIds
  | deleteDocs (ids : Finset String)
  | countItems
  | writeMetadata (time : Nat) (count : Nat)

/-- Collaborator responses for one sync invocation. -/
structure SyncEnv where
  indexExists : Bool
  lastSyncMeta : Option Nat
  source : List WorkItem
  embedApi : List String → Option (List (List Float))
  truncate : String → String
  sourceIds : Finset String
  indexIds : Finset String
  storeCount : Nat
  now : Nat

/-- The embedding API calls issued by `generate_embeddings_batch` for one
sync batch (one call per API sub-batch of 16, after truncation). -/
def embedCallOps (truncate : String → String) (texts : List String) (batch_size : Nat) :
    List Op :=
  if texts.isEmpty then []
  else (chunks batch_size texts).map (fun b => Op.embedApiCall (b.map truncate))

/-- Accumulator of the batch loop of `SyncManager.sync` (lines 103-133). -/
structure BatchState where
  synced : Nat
  ops : List Op
  events : List (List CbArg)

/-- One iteration of the batch loop: report embedding progress, call the
embedding service (API batch size 16), attach vectors, report indexing
progress, upsert the batch. -/
def syncBatchStep (env : SyncEnv) (hasCb : Bool) (total_items : Nat)
    (st : BatchState) (batch : List WorkItem) : BatchState :=
  let batch_contents := batch.map WorkItem.content
  let ev1 := cbIf hasCb (mkCall "embedding" (20 + st.synced * 60 / total_items) 100
    ("Generating embeddings: " ++ toString st.synced ++ "/" ++ toString total_items))
  let embeddings := generate_embeddings_batch env.embedApi env.truncate batch_contents 16
  let docs := attachVectors batch embeddings
  let ev2 := cbIf hasCb (mkCall "indexing" (20 + st.synced * 70 / total_items) 100
    ("Indexing: " ++ toString (st.synced + batch.length) ++ "/" ++ toString total_items))
  { synced := st.synced + batch.length
    ops := st.ops ++ embedCallOps env.truncate batch_contents 16 ++ [Op.upsertDocs docs]
    events := st.events ++ ev1 ++ ev2 }

/-- Result of one sync invocation: the returned pair plus the two traces. -/
structure SyncRun where
  result : Nat × Nat
  ops : List Op
  events : List (List CbArg)

/-- Model of `SyncManager.sync`.  Control flow follows the source line by
line: ensure the index exists, resolve `last_sync_time` (ignored under
`force_full_sync`), fetch, early-return when nothing was fetched, process
fixed-size batches sequentially, reconcile deletions only under
`force_full_sync`, recount and overwrite the metadata record. -/
def sync (env : SyncEnv) (force_full_sync : Bool) (batch_size : Nat) (hasCb : Bool) :
    SyncRun :=
  let ev0 := cbIf hasCb (mkCall "init" 0 100 "Initializing sync...")
  let opsIdx : List Op := if env.indexExists then [] else [Op.createIndex]
  let evIdx := if env.indexExists then [] else
    cbIf hasCb (mkCall "index" 5 100 "Creating search index...")
  let last_sync_time : Option Nat := if force_full_sync then none else env.lastSyncMeta
  let evFetch := cbIf hasCb (mkCall "fetch" 10 100 "Fetching work items from Azure DevOps...")
  let work_items := fetch_work_items env.source last_sync_time
  let opsHead := [Op.checkIndexExists] ++ opsIdx ++ [Op.readSyncMetadata, Op.fetchItems last_sync_time]
  if work_items.isEmpty then
    { result := (0, env.storeCount)
      ops := opsHead ++ [Op.countItems]
      events := ev0 ++ evIdx ++ evFetch ++ cbIf hasCb (mkCall "complete" 100 100 "No new items to sync") }
  else
    let total_items := work_items.length
    let evFetched := cbIf hasCb (mkCall "fetched" 20 100
      ("Fetched " ++ toString total_items ++ " work items"))
    let loop := (chunks batch_size work_items).foldl
      (syncBatchStep env hasCb total_items) { synced := 0, ops := [], events := [] }
    let deleted := env.indexIds \ env.sourceIds
    let cleanOps : List Op := if force_full_sync then
        [Op.fetchSourceIds, Op.fetchIndexIds] ++
          (if deleted = ∅ then [] else [Op.deleteDocs deleted])
      else []
    let cleanEvs := if force_full_sync then
        cbIf hasCb (mkCall "cleanup" 95 100 "Cleaning up deleted work items...")
      else []
    { result := (loop.synced, env.storeCount)
      ops := opsHead ++ loop.ops ++ cleanOps ++ [Op.countItems, Op.writeMetadata env.now env.storeCount]
      events := ev0 ++ evIdx ++ evFetch ++ evFetched ++ loop.events ++ cleanEvs }

/-- Recognizer for metadata-write operations. -/
def Op.isWriteMetadata : Op → Bool
  | Op.writeMetadata _ _ => true
  | _ => false

/-- Union of all identifier sets deleted during a run. -/
def deletions : List Op → Finset String
  | [] => ∅
  | Op.deleteDocs s :: rest => s ∪ deletions rest
  | _ :: rest => deletions rest


/-! ### Query orchestrator (`rag_service.py`)

Python leading underscores are dropped from method names.  Python's
`re.search` on the literal patterns used by the classifiers is substring
containment; the word-bounded patterns of the type extractor are modelled with
an explicit word-boundary matcher. -/

def isWordChar (c : Char) : Bool := c.isAlphanum || c == '_'

def boundaryBefore : Option Char → Bool
  | none => true
  | some c => !isWordChar c

def boundaryAfter : List Char → Bool
  | [] => true
  | c :: _ => !isWordChar c

/-- Occurrence of `t` at the head of `cs` with word boundaries on both sides
(`pre` is the character immediately before `cs`). -/
def wordMatchAt (t : List Char) (pre : Option Char) (cs : List Char) : Bool :=
  boundaryBefore pre && t.isPrefixOf cs && boundaryAfter (cs.drop t.length)

def containsWordAux (t : List Char) : Option Char → List Char → Bool
  | pre, [] => wordMatchAt t pre []
  | pre, c :: rest => wordMatchAt t pre (c :: rest) || containsWordAux t (some c) rest

/-- Whether `re.search(r'\b' + term + r'\b', s)` succeeds for a literal term. -/
def containsWord (term s : String) : Bool :=
  containsWordAux term.toList none s.toList

/-- Filter fragments over the fields used by the extractors, rendered exactly
as the Python f-strings render them. -/
def eqWorkItemId (v : String) : Filt :=
  { render := "work_item_id eq '" ++ v ++ "'", eval := fun d => d.work_item_id == v }

def eqWorkItemType (v : String) : Filt :=
  { render := "work_item_type eq '" ++ v ++ "'", eval := fun d => d.work_item_type == v }

def eqState (v : String) : Filt :=
  { render := "state eq '" ++ v ++ "'", eval := fun d => d.state == v }

def eqPriority (v : String) : Filt :=
  { render := "priority eq '" ++ v ++ "'", eval := fun d => d.priority == some v }

def eqSeverity (v : String) : Filt :=
  { render := "severity eq '" ++ v ++ "'", eval := fun d => d.severity == some v }

/-- Disjunction of ID equalities as rendered by `_extract_work_item_filter`
for multiple IDs. -/
def orIdsFilt (ids : List String) : Filt :=
  { render := "(" ++ joinSep " or " (ids.map (fun i => "work_item_id eq '" ++ i ++ "'")) ++ ")"
    eval := fun d => ids.any (fun i => d.work_item_id == i) }

/-! #### `_extract_work_item_filter` (lines 419-456) -/

/-- Attempted match of `#(\d+)` at the head of the input. -/
def matchHashAt : List Char → Option (String × List Char)
  | '#' :: rest =>
      let ds := rest.takeWhile Char.isDigit
      if ds.isEmpty then none
      else some (String.mk ds, rest.dropWhile Char.isDigit)
  | _ => none

/-- Attempted match of `WI-(\d+)` (case-insensitive) at the head of the
input. -/
def matchWIAt : List Char → Option (String × List Char)
  | c1 :: c2 :: c3 :: rest =>
      if c1.toLower == 'w' && c2.toLower == 'i' && c3 == '-' then
        let ds := rest.takeWhile Char.isDigit
        if ds.isEmpty then none
        else some (String.mk ds, rest.dropWhile Char.isDigit)
      else none
  | _ => none

/-- Case-insensitive literal match, returning the remainder of the input. -/
def matchLit : List Char → List Char → Option (List Char)
  | [], cs => some cs
  | _ :: _, [] => none
  | l :: ls, c :: cs => if c.toLower == l then matchLit ls cs else none

def skipWs (cs : List Char) : List Char := cs.dropWhile Char.isWhitespace

/-- Match of the common tail `\s*#?(\d+)` of the `work item`/`item` patterns;
returns the captured digit group and the remainder. -/
def matchIdTail (cs : List Char) : Option (String × List Char) :=
  let cs1 := skipWs cs
  let cs2 := match cs1 with
    | '#' :: r => r
    | _ => cs1
  let ds := cs2.takeWhile Char.isDigit
  if ds.isEmpty then none else some (String.mk ds, cs2.dropWhile Char.isDigit)

/-- Attempted match of `work\s*item\s*#?(\d+)` at the head of the input. -/
def matchWorkItemAt (cs : List Char) : Option (String × List Char) :=
  (matchLit "work".toList cs).bind fun r1 =>
    (matchLit "item".toList (skipWs r1)).bind fun r2 => matchIdTail r2

/-- Attempted match of `item\s*#?(\d+)` at the head of the input. -/
def matchItemAt (cs : List Char) : Option (String × List Char) :=
  (matchLit "item".toList cs).bind matchIdTail

/-- Fuel-driven non-overlapping left-to-right scan, as performed by
`re.findall`: on a match continue after it, otherwise advance one character.
The fuel is the input length, an upper bound on the number of steps since
every successful match of these patterns consumes at least one character. -/
def scanAllAux (tryAt : List Char → Option (String × List Char)) :
    Nat → List Char → List String
  | 0, _ => []
  | _, [] => []
  | fuel + 1, c :: rest =>
      match tryAt (c :: rest) with
      | some (captured, rem) => captured :: scanAllAux tryAt fuel rem
      | none => scanAllAux tryAt fuel rest

def scanAll (tryAt : List Char → Option (String × List Char)) (cs : List Char) : List String :=
  scanAllAux tryAt cs.length cs

/-- Model of `_extract_work_item_filter`: collect the digit groups of the four
patterns in pattern order, deduplicate keeping first occurrences, and build
a single equality or a parenthesized disjunction of equalities. -/
def extract_work_item_filter (question : String) : Option Filt :=
  let cs := question.toList
  let ids := scanAll matchHashAt cs ++ scanAll matchWIAt cs ++
    scanAll matchWorkItemAt cs ++ scanAll matchItemAt cs
  if ids.isEmpty then none
  else
    let unique_ids := dedupKeepFirst ids
    match unique_ids with
    | [i] => some (eqWorkItemId i)
    | more => some (orIdsFilt more)

/-! #### `_extract_work_item_type_filter` (lines 304-340) -/

def typeMapping : List (String × String) :=
  [("bug", "Bug"), ("bugs", "Bug"), ("issue", "Bug"), ("issues", "Bug"),
   ("defect", "Bug"), ("defects", "Bug"),
   ("user story", "User Story"), ("user stories", "User Story"),
   ("story", "User Story"), ("stories", "User Story"),
   ("task", "Task"), ("tasks", "Task"), ("epic", "Epic"), ("epics", "Epic"),
   ("feature", "Feature"), ("features", "Feature")]

def extract_work_item_type_filter (question : String) : Option Filt :=
  let ql := pyLower question
  (typeMapping.find? (fun p => containsWord p.1 ql)).map (fun p => eqWorkItemType p.2)

/-! #### `_extract_comprehensive_filters` (lines 342-394) -/

def stateMappings : List (String × String) :=
  [("closed", "Closed"), ("resolved", "Resolved"), ("completed", "Closed"),
   ("done", "Closed"), ("active", "Active"), ("open", "Active"),
   ("in progress", "Active"), ("new", "New")]

def priorityFilterOf (ql : String) : Option Filt :=
  if strContains ql "priority 1" || strContains ql "p1" || strContains ql "highest priority" then
    some (eqPriority "1")
  else if strContains ql "priority 2" || strContains ql "p2" || strContains ql "high priority" then
    some (eqPriority "2")
  else if strContains ql "priority 3" || strContains ql "p3" || strContains ql "medium priority" then
    some (eqPriority "3")
  else if strContains ql "priority 4" || strContains ql "p4" || strContains ql "low priority" then
    some (eqPriority "4")
  else none

def severityFilterOf (ql : String) : Option Filt :=
  if strContains ql "critical" || strContains ql "severity 1" then
    some (eqSeverity "1 - Critical")
  else if strContains ql "high severity" || strContains ql "severity 2" then
    some (eqSeverity "2 - High")
  else if strContains ql "medium severity" || strContains ql "severity 3" then
    some (eqSeverity "3 - Medium")
  else if strContains ql "low severity" || strContains ql "severity 4" then
    some (eqSeverity "4 - Low")
  else none

def extract_comprehensive_filters (question : String) : Option Filt :=
  let ql := pyLower question
  let stateF := (stateMappings.find? (fun p => strContains ql p.1)).map (fun p => eqState p.2)
  let filters := [stateF, priorityFilterOf ql, severityFilterOf ql].filterMap id
  if filters.isEmpty then none
  else some
    { render := joinSep " and " (filters.map Filt.render)
      eval := fun d => filters.all (fun f => f.eval d) }

/-! #### Classifiers (lines 396-417, 458-477, 644-680) and canned responses -/

def countPatterns : List String :=
  ["how many", "count", "number of", "list all", "show all", "give me all", "total"]

def is_count_or_list_query (question : String) : Bool :=
  countPatterns.any (fun p => strContains (pyLower question) p)

def wantsListWords : List String := ["list", "show", "display", "what are", "which"]

/-- Inline classification `any(word in question.lower() for word in [...])`
at line 91 of `rag_service.py`. -/
def wantsList (question : String) : Bool :=
  wantsListWords.any (fun w => strContains (pyLower question) w)

def triagePatterns : List String :=
  ["similar bug", "duplicate bug", "same bug", "related bug",
   "already logged", "already reported", "already exists",
   "valid bug", "is this a bug", "triage", "related requirement",
   "match with requirement", "associated requirement", "check for duplicate"]

def is_bug_triage_query (question : String) : Bool :=
  triagePatterns.any (fun p => strContains (pyLower question) p)

def greetingsList : List String :=
  ["hi", "hello", "hey", "greetings", "good morning", "good afternoon",
   "good evening", "howdy", "hiya", "sup", "what's up", "whats up"]

def conversationalList : List String :=
  ["how are you", "thank you", "thanks", "bye", "goodbye", "ok", "okay",
   "nice", "cool", "great", "awesome", "perfect"]

def questionKeywords : List String :=
  ["show", "find", "search", "get", "list", "what", "how", "which", "when",
   "who", "bug", "issue", "task", "work item"]

def is_greeting_or_conversational (text : String) : Bool :=
  let tl := pyStrip (pyLower text)
  if greetingsList.contains tl || conversationalList.contains tl then true
  else greetingsList.any (fun g =>
    (pyStartsWith (g ++ " ") tl || pyStartsWith (g ++ "!") tl) &&
    !(questionKeywords.any (fun k => strContains tl k)))

def get_conversational_response (text : String) : String :=
  let tl := pyStrip (pyLower text)
  if ["hi", "hello", "hey", "good morning", "good afternoon", "good evening"].any
      (fun g => strContains tl g) then
    "Hello! I'm your Azure DevOps Work Item Assistant. I can help you find and analyze work items from your DemoBugSense project.\n\nTry asking me questions like:\n- 'Show me all open bugs'\n- 'What work items are assigned to [name]?'\n- 'Find high priority tasks'\n- 'What's the status of work item #123?'\n- 'Show recent issues'"
  else if strContains tl "thank" then
    "You're welcome! Feel free to ask me anything about your work items."
  else if ["bye", "goodbye"].any (fun b => strContains tl b) then
    "Goodbye! Come back anytime you need help with your work items."
  else
    "I'm here to help you search and analyze Azure DevOps work items. Ask me a question about your work items!"

/-! #### Context assembly (`_build_context`, `_build_references`,
lines 233-302) -/

/-- Numeric key used by `sorted(documents, key=lambda doc:
int(doc.get("work_item_id", "0")))`; retrieved documents carry decimal native
IDs, non-numeric keys are read as 0. -/
def docIdNum (d : Doc) : Nat := (pyToNat d.work_item_id).getD 0

def docLe (a b : Doc) : Prop := docIdNum a ≤ docIdNum b

instance : DecidableRel docLe := fun a b => Nat.decLe (docIdNum a) (docIdNum b)

instance : IsTotal Doc docLe := ⟨fun a b => Nat.le_total (docIdNum a) (docIdNum b)⟩

instance : IsTrans Doc docLe := ⟨fun _ _ _ h h' => Nat.le_trans h h'⟩

/-- Stable ascending sort by the numeric native ID; insertion sort is stable,
matching Python's `sorted`. -/
def sortDocsById (documents : List Doc) : List Doc := List.insertionSort docLe documents

/-- Per-item template of `_build_context` (lines 248-273), including the
trailing `.strip()`. -/
def renderContextItem (d : Doc) : String :=
  let s0 := "\nWork Item #" ++ d.work_item_id ++ ": " ++ d.title ++ "\nType: " ++
    d.work_item_type ++ " | State: " ++ d.state ++ " | Assigned To: " ++ d.assigned_to ++ "\n"
  let s1 := if d.tags.isEmpty then s0 else s0 ++ "Tags: " ++ d.tags ++ "\n"
  let s2 := if d.created_date.isEmpty then s1 else s1 ++ "Created: " ++ d.created_date ++ "\n"
  let s3 := if d.changed_date.isEmpty then s2 else s2 ++ "Last Updated: " ++ d.changed_date ++ "\n"
  pyStrip (s3 ++ "\n" ++ d.content)

def build_context (documents : List Doc) : String :=
  joinSep "\n\n---\n\n" ((sortDocsById documents).map renderContextItem)

/-- Per-item template of `_build_references` (line 299). -/
def renderReference (d : Doc) : String :=
  "- [#" ++ d.work_item_id ++ "](" ++ d.work_item_url ++ ") - **" ++ d.title ++ "** (" ++
    d.work_item_type ++ " - " ++ d.state ++ ")"

def build_references (documents : List Doc) : String :=
  joinSep "\n" ((sortDocsById documents).map renderReference)

/-! #### Bug triage flow (`_handle_bug_triage`, lines 479-642) -/

/-- Truncation `desc[:200] + "..."` applied when a description exceeds 200
characters. -/
def truncate200 (s : String) : String :=
  if s.length > 200 then ⟨s.toList.take 200⟩ ++ "..." else s

/-- Current-bug block of the triage context (lines 547-561). -/
def triageCurrentBugPart (bug_details : Option Doc) (bug_description : String) : String :=
  match bug_details with
  | some b =>
      "CURRENT BUG:\nWork Item #" ++ b.work_item_id ++ ": " ++ b.title ++ "\nType: " ++
        b.work_item_type ++ "\nState: " ++ b.state ++ "\nPriority: " ++ b.priority.getD "N/A" ++
        "\nSeverity: " ++ b.severity.getD "N/A" ++ "\n\nDescription:\n" ++ b.description ++
        "\n\nRepro Steps:\n" ++ b.repro_steps.getD "N/A" ++ "\n"
  | none => "BUG DESCRIPTION PROVIDED:\n" ++ bug_description ++ "\n"

/-- Numbered similar-bugs block (lines 563-574): at most five entries, or the
explicit absence line. -/
def triageSimilarParts (similar_bugs : List Doc) : List String :=
  if similar_bugs.isEmpty then ["\nNo similar bugs found."]
  else "\nSIMILAR BUGS FOUND:" ::
    (List.enumFrom 1 (similar_bugs.take 5)).map (fun p =>
      "\n" ++ toString p.1 ++ ". Work Item #" ++ p.2.work_item_id ++ ": " ++ p.2.title ++
        "\n   State: " ++ p.2.state ++ " | Priority: " ++ p.2.priority.getD "N/A" ++
        " | Severity: " ++ p.2.severity.getD "N/A" ++
        "\n   Description: " ++ truncate200 p.2.description)

/-- Numbered related-requirements block (lines 576-591), or the explicit
absence line. -/
def triageRequirementParts (requirements : List Doc) : List String :=
  if requirements.isEmpty then ["\n\nNo directly related requirements found."]
  else "\n\nRELATED REQUIREMENTS (User Stories):" ::
    (List.enumFrom 1 requirements).map (fun p =>
      "\n" ++ toString p.1 ++ ". Work Item #" ++ p.2.work_item_id ++ ": " ++ p.2.title ++
        "\n   State: " ++ p.2.state ++
        "\n   Description: " ++ truncate200 p.2.description ++
        "\n   Acceptance Criteria: " ++ truncate200 (p.2.acceptance_criteria.getD "N/A"))

/-- Assembled triage context `"\n".join(context_parts)` (line 593). -/
def triageContext (bug_details : Option Doc) (bug_description : String)
    (similar_bugs requirements : List Doc) : String :=
  joinSep "\n" (triageCurrentBugPart bug_details bug_description ::
    (triageSimilarParts similar_bugs ++ triageRequirementParts requirements))

/-- Filter used to fetch the current bug by ID (line 501). -/
def triageBugFetchFilter (idf : Filt) : Filt :=
  { render := "(is_metadata eq false or is_metadata eq null) and (" ++ idf.render ++
      ") and (work_item_type eq 'Bug')"
    eval := fun d => baseFilt.eval d && idf.eval d && d.work_item_type == "Bug" }

/-- Filter for the similar-bugs retrieval (lines 520-523), optionally
excluding the current bug. -/
def triageSimilarFilter (idf : Option Filt) : Filt :=
  let f0 : Filt :=
    { render := "(is_metadata eq false or is_metadata eq null) and (work_item_type eq 'Bug')"
      eval := fun d => baseFilt.eval d && d.work_item_type == "Bug" }
  match idf with
  | some f =>
      { render := f0.render ++ " and not (" ++ f.render ++ ")"
        eval := fun d => f0.eval d && !f.eval d }
  | none => f0

/-- Filter for the related-requirements retrieval (line 540). -/
def triageReqFilter : Filt :=
  { render := "(is_metadata eq false or is_metadata eq null) and (work_item_type eq 'User Story')"
    eval := fun d => baseFilt.eval d && d.work_item_type == "User Story" }

/-- Collaborator responses for the query orchestrator: the query embedding,
the hybrid search (query text, query vector, top-k, filter) and the filtered
existence-count request. -/
structure RagEnv where
  embed : String → List Float
  hybridSearch : String → List Float → Nat → Filt → List Doc
  filteredCount : Filt → Nat

/-- Observable outcome of the triage path, up to the generation call. -/
structure TriageOutcome where
  bug_details : Option Doc
  bug_description : String
  similar_bugs : List Doc
  requirements : List Doc
  context : String
  appendReferences : Bool

inductive TriageResult where
  | needDescription (msg : String)
  | ok (o : TriageOutcome)

/-- Retrievals and context assembly shared by both arms of the triage flow
(lines 519-593 and 629-638). -/
def mkTriage (env : RagEnv) (question : String) (bug_details : Option Doc)
    (bug_description : String) (bug_id_filter : Option Filt) : TriageResult :=
  let embedding_text := if bug_description.isEmpty then question else bug_description
  let similar_bugs := env.hybridSearch "" (env.embed embedding_text) 10
    (triageSimilarFilter bug_id_filter)
  let requirements := env.hybridSearch "" (env.embed embedding_text) 5 triageReqFilter
  TriageResult.ok
    { bug_details, bug_description, similar_bugs, requirements
      context := triageContext bug_details bug_description similar_bugs requirements
      appendReferences := !similar_bugs.isEmpty || !requirements.isEmpty }

/-- Model of `_handle_bug_triage`: resolve the current bug (by ID when the
question carries one, otherwise the question text is the description), bail
out when no description could be derived, then run the two vector-only
retrievals and assemble the context. -/
def handle_bug_triage (env : RagEnv) (question : String) : TriageResult :=
  let bug_id_filter := extract_work_item_filter question
  match bug_id_filter with
  | some idf =>
      let bugs := env.hybridSearch question (env.embed question) 1 (triageBugFetchFilter idf)
      match bugs with
      | [] => TriageResult.needDescription
          "Please provide a bug ID (e.g., #123) or describe the bug you want to analyze."
      | b :: _ =>
          if b.content.isEmpty then TriageResult.needDescription
            "Please provide a bug ID (e.g., #123) or describe the bug you want to analyze."
          else mkTriage env question (some b) b.content bug_id_filter
  | none =>
      if question.isEmpty then TriageResult.needDescription
        "Please provide a bug ID (e.g., #123) or describe the bug you want to analyze."
      else mkTriage env question none question none

/-! #### Main query path (`RAGService.query`, lines 47-201) -/

/-- Filter assembly of lines 97-104: the base predicate excluding metadata
records, AND-combined with each present extractor fragment. -/
def build_filter_expr (work_item_filter type_filter comprehensive_filters : Option Filt) : Filt :=
  let fe0 := baseFilt
  let fe1 := match work_item_filter with
    | some f => Filt.andF fe0 f
    | none => fe0
  let fe2 := match type_filter with
    | some f => Filt.andF fe1 f
    | none => fe1
  match comprehensive_filters with
  | some f => Filt.andF fe2 f
  | none => fe2

/-- Count-only directive block (lines 136-139). -/
def countOnlyContext (c : Nat) : String :=
  "===== ANSWER: " ++ toString c ++ " =====\nThe total count is " ++ toString c ++
    ". Provide this number as your complete answer.\nDo not list individual items unless the user asked to see them.\n=================="

/-- Count directive prepended above the item bodies (lines 146-149). -/
def countWithItemsContext (c : Nat) (docs : List Doc) (inner : String) : String :=
  "===== ANSWER: " ++ toString c ++ " =====\nThe total count is " ++ toString c ++
    ". Use this number as your answer.\nBelow are " ++ toString docs.length ++
    " sample items for reference.\n==================\n\n" ++ inner

/-- Observable outcome of the general retrieval path, up to the generation
call. -/
structure AnswerOutcome where
  filter_expr : Filt
  search_top_k : Nat
  docs : List Doc
  countRequested : Bool
  actual_count : Option Nat
  context : String
  references : String
  appendReferences : Bool

inductive QueryResult where
  | conversational (resp : String)
  | triage (t : TriageResult)
  | noResults (msg : String)
  | answer (o : AnswerOutcome)

/-- Model of `RAGService.query`: route to the conversational short-circuit or
the triage flow, otherwise derive filters and classifications, retrieve, and
assemble context and references. -/
def query (env : RagEnv) (question : String) (top_k : Nat) : QueryResult :=
  if is_greeting_or_conversational question then
    QueryResult.conversational (get_conversational_response question)
  else if is_bug_triage_query question then
    QueryResult.triage (handle_bug_triage env question)
  else
    let work_item_filter := extract_work_item_filter question
    let type_filter := extract_work_item_type_filter question
    let comprehensive_filters := extract_comprehensive_filters question
    let is_count_query := is_count_or_list_query question
    let wants_list := wantsList question
    let search_top_k := if is_count_query then 50 else top_k
    let question_embedding := env.embed question
    let filter_expr := build_filter_expr work_item_filter type_filter comprehensive_filters
    let relevant_docs := env.hybridSearch question question_embedding search_top_k filter_expr
    if relevant_docs.isEmpty then
      QueryResult.noResults "I couldn't find any relevant work items to answer your question. Please try rephrasing or ask about different topics."
    else
      let countActive := is_count_query &&
        (type_filter.isSome || work_item_filter.isSome || comprehensive_filters.isSome)
      let actual_count := if countActive then some (env.filteredCount filter_expr) else none
      let context := match actual_count with
        | some c =>
            if !wants_list then countOnlyContext c
            else countWithItemsContext c relevant_docs (build_context relevant_docs)
        | none => build_context relevant_docs
      QueryResult.answer
        { filter_expr, search_top_k, docs := relevant_docs
          countRequested := countActive, actual_count, context
          references := build_references relevant_docs
          appendReferences := wants_list || !is_count_query }

/-! ### Helper lemmas about the sync loop -/

theorem div_mul_le_of_le (a b k : Nat) (h : a ≤ b) : a * k / b ≤ k := by
  rcases Nat.eq_zero_or_pos b with hb | hb
  · subst hb
    have : a = 0 := Nat.le_zero.1 h
    subst this
    simp
  · calc a * k / b ≤ b * k / b := Nat.div_le_div_right (Nat.mul_le_mul_right k h)
    _ = k := Nat.mul_div_cancel_left k hb

/-- Operations contributed by one iteration of the batch loop. -/
def batchOps (env : SyncEnv) (batch : List WorkItem) : List Op :=
  embedCallOps env.truncate (batch.map WorkItem.content) 16 ++
    [Op.upsertDocs (attachVectors batch
      (generate_embeddings_batch env.embedApi env.truncate (batch.map WorkItem.content) 16))]

theorem loop_ops_eq (env : SyncEnv) (hasCb : Bool) (total : Nat) :
    ∀ (bs : List (List WorkItem)) (st : BatchState),
      (bs.foldl (syncBatchStep env hasCb total) st).ops = st.ops ++ bs.flatMap (batchOps env) := by
  intro bs
  induction bs with
  | nil => intro st; simp
  | cons b bs ih =>
    intro st
    rw [List.foldl_cons, ih]
    simp [syncBatchStep, batchOps, List.append_assoc]

theorem loop_synced_eq (env : SyncEnv) (hasCb : Bool) (total : Nat) :
    ∀ (bs : List (List WorkItem)) (st : BatchState),
      (bs.foldl (syncBatchStep env hasCb total) st).synced
        = st.synced + (bs.map List.length).sum := by
  intro bs
  induction bs with
  | nil => intro st; simp
  | cons b bs ih =>
    intro st
    rw [List.foldl_cons, ih]
    simp [syncBatchStep]
    omega

theorem chunks_sum_length (n : Nat) (l : List α) :
    ((chunks n l).map List.length).sum = l.length := by
  rw [← List.length_flatten, chunks_join]

/-! ### Claim theorems -/

/-- C4: for every delta sync with `lastSyncTime` set, the source is queried at
day granularity (last-changed date on or after the day of `lastSyncTime`) and
the results are re-filtered client-side at exact timestamp granularity, so
that exactly the fetched items whose last-changed timestamp is strictly after
`lastSyncTime` are indexed; given items with changed timestamps T1 < T2 < T3
and `lastSyncTime = T2`, the item changed at T3 is indexed and the item
unchanged since T1 is not re-indexed. -/
theorem delta_sync_day_query_exact_refilter (source : List WorkItem) (t : Nat) :
    (∀ it, it ∈ fetch_work_items source (some t) ↔
      it ∈ source.filter (wiqlDayPred t) ∧ ∃ c, it.changed_date = some c ∧ t < c) ∧
    (∀ it, it ∈ fetch_work_items source (some t) ↔
      it ∈ source ∧ ∃ c, it.changed_date = some c ∧ t < c) ∧
    (∀ (i1 i3 : WorkItem) (T1 T3 : Nat), T1 < t → t < T3 →
      i1.changed_date = some T1 → i3.changed_date = some T3 →
      fetch_work_items [i1, i3] (some t) = [i3]) := by
  have hday : ∀ (c : Nat), t ≤ c → dayOf t ≤ dayOf c := fun c hc =>
    Nat.div_le_div_right hc
  have hmem : ∀ it, it ∈ fetch_work_items source (some t) ↔
      it ∈ source.filter (wiqlDayPred t) ∧ ∃ c, it.changed_date = some c ∧ t < c := by
    intro it
    show it ∈ (source.filter (wiqlDayPred t)).filter (clientExactPred t) ↔ _
    rw [List.mem_filter]
    constructor
    · rintro ⟨hin, hcl⟩
      refine ⟨hin, ?_⟩
      have hw := (List.mem_filter.1 hin).2
      unfold wiqlDayPred at hw
      unfold clientExactPred at hcl
      cases hcd : it.changed_date with
      | none => rw [hcd] at hw; exact absurd hw (by simp)
      | some c =>
        rw [hcd] at hcl
        exact ⟨c, rfl, by simpa using hcl⟩
    · rintro ⟨hin, c, hcd, hc⟩
      refine ⟨hin, ?_⟩
      unfold clientExactPred
      rw [hcd]
      simpa using hc
  refine ⟨hmem, ?_, ?_⟩
  · intro it
    rw [hmem it]
    constructor
    · rintro ⟨hin, hc⟩
      exact ⟨(List.mem_filter.1 hin).1, hc⟩
    · rintro ⟨hin, c, hcd, hc⟩
      refine ⟨List.mem_filter.2 ⟨hin, ?_⟩, c, hcd, hc⟩
      unfold wiqlDayPred
      rw [hcd]
      simpa using hday c (Nat.le_of_lt hc)
  · intro i1 i3 T1 T3 h1 h3 hc1 hc3
    show ([i1, i3].filter (wiqlDayPred t)).filter (clientExactPred t) = [i3]
    have hw3 : wiqlDayPred t i3 = true := by
      unfold wiqlDayPred; rw [hc3]; simpa using hday T3 (Nat.le_of_lt h3)
    have hcl3 : clientExactPred t i3 = true := by
      unfold clientExactPred; rw [hc3]; simpa using h3
    have hcl1 : clientExactPred t i1 = false := by
      unfold clientExactPred; rw [hc1]; simpa using Nat.not_lt.2 (Nat.le_of_lt h1)
    by_cases hw1 : wiqlDayPred t i1 = true
    · simp [List.filter, hw1, hw3, hcl1, hcl3]
    · simp only [Bool.not_eq_true] at hw1
      simp [List.filter, hw1, hw3, hcl3]

/-- C4 witness: a concrete delta sync at `lastSyncTime = 200000` over items
changed at 100000 and 90000000 keeps exactly the newer item. -/
theorem delta_sync_day_query_exact_refilter_witness :
    fetch_work_items
        [⟨"p_1", "1", "a", some 100000⟩, ⟨"p_2", "2", "b", some 90000000⟩]
        (some 200000)
      = [⟨"p_2", "2", "b", some 90000000⟩] :=
  (delta_sync_day_query_exact_refilter
      [⟨"p_1", "1", "a", some 100000⟩, ⟨"p_2", "2", "b", some 90000000⟩] 200000).2.2
    ⟨"p_1", "1", "a", some 100000⟩ ⟨"p_2", "2", "b", some 90000000⟩ 100000 90000000
    (by decide) (by decide) rfl rfl

/-- Canonical shape of the operation trace of one sync run. -/
theorem sync_ops_eq (env : SyncEnv) (force_full_sync : Bool) (batch_size : Nat) (hasCb : Bool) :
    (sync env force_full_sync batch_size hasCb).ops =
      [Op.checkIndexExists] ++ (if env.indexExists then [] else [Op.createIndex]) ++
        [Op.readSyncMetadata,
         Op.fetchItems (if force_full_sync then none else env.lastSyncMeta)] ++
        (if (fetch_work_items env.source
              (if force_full_sync then none else env.lastSyncMeta)).isEmpty then
          [Op.countItems]
        else
          (chunks batch_size (fetch_work_items env.source
              (if force_full_sync then none else env.lastSyncMeta))).flatMap (batchOps env) ++
            (if force_full_sync then
              [Op.fetchSourceIds, Op.fetchIndexIds] ++
                (if env.indexIds \ env.sourceIds = ∅ then []
                 else [Op.deleteDocs (env.indexIds \ env.sourceIds)])
             else []) ++
            [Op.countItems, Op.writeMetadata env.now env.storeCount]) := by
  unfold sync
  by_cases hw : (fetch_work_items env.source
      (if force_full_sync then none else env.lastSyncMeta)).isEmpty <;>
    simp [hw, loop_ops_eq]

/-- The returned pair of one sync run: the number of fetched items and the
recount read from the store. -/
theorem sync_result_eq (env : SyncEnv) (force_full_sync : Bool) (batch_size : Nat) (hasCb : Bool) :
    (sync env force_full_sync batch_size hasCb).result =
      ((fetch_work_items env.source
          (if force_full_sync then none else env.lastSyncMeta)).length,
        env.storeCount) := by
  unfold sync
  by_cases hw : (fetch_work_items env.source
      (if force_full_sync then none else env.lastSyncMeta)).isEmpty
  · simp [hw]
    exact (List.isEmpty_iff.1 hw).symm ▸ rfl
  · simp [hw, loop_synced_eq, chunks_sum_length]

/-- Payloads of the upsert operations of a trace, in order. -/
def upsertsOf (ops : List Op) : List (List DocWithVec) :=
  ops.filterMap (fun op => match op with
    | Op.upsertDocs docs => some docs
    | _ => none)

theorem upsertsOf_append (a b : List Op) :
    upsertsOf (a ++ b) = upsertsOf a ++ upsertsOf b := by
  simp [upsertsOf]

theorem upsertsOf_embedCallOps (truncate : String → String) (texts : List String)
    (batch_size : Nat) : upsertsOf (embedCallOps truncate texts batch_size) = [] := by
  unfold embedCallOps
  by_cases h : texts.isEmpty
  · simp [h, upsertsOf]
  · simp only [h, if_false, upsertsOf, List.filterMap_eq_nil_iff]
    intro op hop
    rcases List.mem_map.1 hop with ⟨b, _, rfl⟩
    rfl

/-- Vectors attached to one batch by the loop body. -/
def batchDocs (env : SyncEnv) (b : List WorkItem) : List DocWithVec :=
  attachVectors b
    (generate_embeddings_batch env.embedApi env.truncate (b.map WorkItem.content) 16)

theorem upsertsOf_batchOps (env : SyncEnv) (b : List WorkItem) :
    upsertsOf (batchOps env b) = [batchDocs env b] := by
  unfold batchOps
  rw [upsertsOf_append, upsertsOf_embedCallOps]
  rfl

theorem upsertsOf_flatMap_batchOps (env : SyncEnv) :
    ∀ bs : List (List WorkItem),
      upsertsOf (bs.flatMap (batchOps env)) = bs.map (batchDocs env) := by
  intro bs
  induction bs with
  | nil => rfl
  | cons b bs ih =>
    rw [List.flatMap_cons, upsertsOf_append, upsertsOf_batchOps, ih]
    rfl

/-- The upserts of one sync run are exactly the fetched batches with vectors
attached. -/
theorem sync_upsertsOf (env : SyncEnv) (force_full_sync : Bool) (batch_size : Nat)
    (hasCb : Bool) :
    upsertsOf ((sync env force_full_sync batch_size hasCb).ops) =
      (chunks batch_size (fetch_work_items env.source
        (if force_full_sync then none else env.lastSyncMeta))).map (batchDocs env) := by
  rw [sync_ops_eq]
  rw [upsertsOf_append, upsertsOf_append, upsertsOf_append]
  have h1 : upsertsOf [Op.checkIndexExists] = [] := rfl
  have h2 : upsertsOf (if env.indexExists then [] else [Op.createIndex]) = [] := by
    split <;> rfl
  have h3 : upsertsOf [Op.readSyncMetadata,
      Op.fetchItems (if force_full_sync then none else env.lastSyncMeta)] = [] := rfl
  rw [h1, h2, h3]
  by_cases hw : (fetch_work_items env.source
      (if force_full_sync then none else env.lastSyncMeta)).isEmpty
  · rw [if_pos hw]
    have : fetch_work_items env.source
        (if force_full_sync then none else env.lastSyncMeta) = [] := List.isEmpty_iff.1 hw
    rw [this]
    simp [chunks, upsertsOf]
  · rw [if_neg hw]
    rw [upsertsOf_append, upsertsOf_append, upsertsOf_flatMap_batchOps]
    have h4 : upsertsOf (if force_full_sync then
        [Op.fetchSourceIds, Op.fetchIndexIds] ++
          (if env.indexIds \ env.sourceIds = ∅ then []
           else [Op.deleteDocs (env.indexIds \ env.sourceIds)]) else []) = [] := by
      split
      · rw [upsertsOf_append]
        have : upsertsOf (if env.indexIds \ env.sourceIds = ∅ then []
            else [Op.deleteDocs (env.indexIds \ env.sourceIds)]) = [] := by
          split <;> rfl
        rw [this]
        rfl
      · rfl
    have h5 : upsertsOf [Op.countItems, Op.writeMetadata env.now env.storeCount] = [] := rfl
    rw [h4, h5]
    simp

/-- Items of a sync run's upserts, batch by batch. -/
theorem sync_upsertedItems (env : SyncEnv) (force_full_sync : Bool) (batch_size : Nat)
    (hasCb : Bool) :
    ((upsertsOf ((sync env force_full_sync batch_size hasCb).ops)).map
        (fun docs => docs.map DocWithVec.item)).flatten =
      fetch_work_items env.source (if force_full_sync then none else env.lastSyncMeta) := by
  rw [sync_upsertsOf]
  rw [List.map_map]
  have h : ((chunks batch_size (fetch_work_items env.source
      (if force_full_sync then none else env.lastSyncMeta))).map
        ((fun docs => docs.map DocWithVec.item) ∘ batchDocs env)) =
      (chunks batch_size (fetch_work_items env.source
        (if force_full_sync then none else env.lastSyncMeta))).map (fun b => b) :=
    List.map_congr_left (fun b _ => by simp [batchDocs, attachVectors_items])
  rw [h, List.map_id', chunks_join]

/-- C3: an embedding request failure for a batch does not abort the run: the
failed batch is replaced by zero vectors of the expected dimension (1536), the
produced embeddings list has exactly one vector per input text in order (under
the API contract that a successful response carries one embedding per input),
and in a sync run every upserted document carries a vector and the upserted
items are exactly the fetched items. -/
theorem embedding_failure_zero_vector_degradation :
    (∀ (api : List String → Option (List (List Float))) (truncate : String → String)
        (texts : List String) (batch_size : Nat),
      generate_embeddings_batch api truncate texts batch_size
        = (chunks batch_size texts).flatMap (embedBatchResult api truncate)) ∧
    (∀ api truncate (b : List String), api (b.map truncate) = none →
      embedBatchResult api truncate b = List.replicate b.length zeroVec) ∧
    zeroVec = List.replicate expectedEmbeddingDim 0.0 ∧
    (∀ api truncate (texts : List String) (batch_size : Nat),
      (∀ b e, api b = some e → e.length = b.length) →
      (generate_embeddings_batch api truncate texts batch_size).length = texts.length) ∧
    (∀ (env : SyncEnv) (force_full_sync : Bool) (batch_size : Nat) (hasCb : Bool),
      (∀ b e, env.embedApi b = some e → e.length = b.length) →
      (∀ docs ∈ upsertsOf ((sync env force_full_sync batch_size hasCb).ops),
        ∀ d ∈ docs, d.content_vector.isSome) ∧
      ((upsertsOf ((sync env force_full_sync batch_size hasCb).ops)).map
          (fun docs => docs.map DocWithVec.item)).flatten =
        fetch_work_items env.source
          (if force_full_sync then none else env.lastSyncMeta)) := by
  refine ⟨generate_embeddings_batch_eq_flatMap, ?_, rfl, generate_embeddings_batch_length, ?_⟩
  · intro api truncate b hfail
    unfold embedBatchResult
    rw [hfail]
  · intro env force_full_sync batch_size hasCb hapi
    refine ⟨?_, sync_upsertedItems env force_full_sync batch_size hasCb⟩
    intro docs hmem d hd
    rw [sync_upsertsOf] at hmem
    rcases List.mem_map.1 hmem with ⟨b, _, rfl⟩
    refine attachVectors_isSome b _ ?_ d hd
    rw [generate_embeddings_batch_length env.embedApi env.truncate _ 16 hapi]
    simp

/-- C3 witness: with an embedding API that always fails, a two-text batch run
still yields one (zero) vector per text, and a one-item sync upserts the item
with a vector attached. -/
theorem embedding_failure_zero_vector_degradation_witness :
    (generate_embeddings_batch (fun _ => none) id ["a", "b"] 16).length = 2 ∧
    embedBatchResult (fun _ => none) id ["a", "b"] = List.replicate 2 zeroVec ∧
    (∀ docs ∈ upsertsOf ((sync
        { indexExists := true, lastSyncMeta := none,
          source := [⟨"p_1", "1", "text", some 5⟩], embedApi := fun _ => none,
          truncate := id, sourceIds := ∅, indexIds := ∅, storeCount := 1, now := 9 }
        false 50 false).ops), ∀ d ∈ docs, d.content_vector.isSome) := by
  refine ⟨?_, ?_, ?_⟩
  · exact embedding_failure_zero_vector_degradation.2.2.2.1 (fun _ => none) id ["a", "b"] 16
      (fun b e h => by simp at h)
  · exact embedding_failure_zero_vector_degradation.2.1 (fun _ => none) id ["a", "b"] rfl
  · exact (embedding_failure_zero_vector_degradation.2.2.2.2
      { indexExists := true, lastSyncMeta := none,
        source := [⟨"p_1", "1", "text", some 5⟩], embedApi := fun _ => none,
        truncate := id, sourceIds := ∅, indexIds := ∅, storeCount := 1, now := 9 }
      false 50 false (fun b e h => by simp at h)).1

def Op.isCountItems : Op → Bool
  | Op.countItems => true
  | _ => false

/-- Concrete environment whose item fetch returns zero items. -/
def c1Env : SyncEnv :=
  { indexExists := true, lastSyncMeta := none, source := [],
    embedApi := fun _ => none, truncate := id,
    sourceIds := ∅, indexIds := ∅, storeCount := 7, now := 1000 }

/-- C1 counterexample: a sync invocation whose item fetch returns zero items
recomputes the total and returns `(0, totalIndexCount)`, but performs no
metadata write at all — refuting the claim that the engine overwrites the
Sync Metadata Record on this path. -/
theorem sync_zero_items_counterexample :
    fetch_work_items c1Env.source none = [] ∧
    (sync c1Env false 50 false).result = (0, c1Env.storeCount) ∧
    ¬ ((sync c1Env false 50 false).ops.any Op.isWriteMetadata = true) := by
  decide

/-- C1 (amended): for every invocation of sync in which the item fetch
returns zero items, the engine recomputes the total item count from the Index
Store and returns `(0, totalIndexCount)`, but does not overwrite the Sync
Metadata Record — the metadata update of step 7 is skipped on this early
return. -/
theorem sync_zero_items_skips_metadata_write (env : SyncEnv) (force_full_sync : Bool)
    (batch_size : Nat) (hasCb : Bool)
    (h : fetch_work_items env.source
      (if force_full_sync then none else env.lastSyncMeta) = []) :
    (sync env force_full_sync batch_size hasCb).result = (0, env.storeCount) ∧
    (sync env force_full_sync batch_size hasCb).ops.any Op.isCountItems = true ∧
    (sync env force_full_sync batch_size hasCb).ops.all (fun op => !Op.isWriteMetadata op) = true := by
  have hres := sync_result_eq env force_full_sync batch_size hasCb
  rw [h] at hres
  have hops := sync_ops_eq env force_full_sync batch_size hasCb
  rw [h] at hops
  simp only [List.isEmpty_nil, if_true] at hops
  refine ⟨by simpa using hres, ?_, ?_⟩
  · rw [hops]
    rcases env.indexExists with _ | _ <;> simp [Op.isCountItems]
  · rw [hops]
    rcases env.indexExists with _ | _ <;> simp [Op.isWriteMetadata]

/-- C1 witness: the amended statement applied to the concrete zero-item
environment. -/
theorem sync_zero_items_skips_metadata_write_witness :
    (sync c1Env false 50 false).result = (0, c1Env.storeCount) ∧
    (sync c1Env false 50 false).ops.any Op.isCountItems = true ∧
    (sync c1Env false 50 false).ops.all (fun op => !Op.isWriteMetadata op) = true :=
  sync_zero_items_skips_metadata_write c1Env false 50 false rfl

/-- Well-formedness of one recorded callback invocation: four positional
arguments `(step, current, total, message)` with `total = 100` and a percent
within bounds; no return value exists to be consumed. -/
def goodEvent (e : List CbArg) : Prop :=
  ∃ step current message, e = mkCall step current 100 message ∧ current ≤ 100 ∧ e.length = 4

theorem goodEvent_mkCall (step : String) (current : Nat) (message : String)
    (h : current ≤ 100) : goodEvent (mkCall step current 100 message) :=
  ⟨step, current, message, rfl, h, rfl⟩

theorem mem_cbIf {e call : List CbArg} {hasCb : Bool} (h : e ∈ cbIf hasCb call) : e = call := by
  cases hasCb <;> simp [cbIf] at h
  exact h

theorem loop_events_good (env : SyncEnv) (hasCb : Bool) (total : Nat) :
    ∀ (bs : List (List WorkItem)) (st : BatchState),
      (∀ e ∈ st.events, goodEvent e) →
      st.synced + (bs.map List.length).sum ≤ total →
      ∀ e ∈ (bs.foldl (syncBatchStep env hasCb total) st).events, goodEvent e := by
  intro bs
  induction bs with
  | nil => intro st h _ e he; exact h e he
  | cons b bs ih =>
    intro st h hsum e he
    rw [List.foldl_cons] at he
    have hsync : st.synced ≤ total := by
      simp only [List.map_cons, List.sum_cons] at hsum
      omega
    refine ih _ ?_ ?_ e he
    · intro e' he'
      simp only [syncBatchStep] at he'
      rcases List.mem_append.1 he' with h1 | hev2
      · rcases List.mem_append.1 h1 with h0 | hev1
        · exact h _ h0
        · rw [mem_cbIf hev1]
          refine goodEvent_mkCall _ _ _ ?_
          have := div_mul_le_of_le st.synced total 60 hsync
          omega
      · rw [mem_cbIf hev2]
        refine goodEvent_mkCall _ _ _ ?_
        have := div_mul_le_of_le st.synced total 70 hsync
        omega
    · simp only [syncBatchStep, List.map_cons, List.sum_cons] at hsum ⊢
      omega

/-- Canonical shape of the progress-event trace of one sync run. -/
theorem sync_events_eq (env : SyncEnv) (force_full_sync : Bool) (batch_size : Nat)
    (hasCb : Bool) :
    (sync env force_full_sync batch_size hasCb).events =
      cbIf hasCb (mkCall "init" 0 100 "Initializing sync...") ++
      (if env.indexExists then []
       else cbIf hasCb (mkCall "index" 5 100 "Creating search index...")) ++
      cbIf hasCb (mkCall "fetch" 10 100 "Fetching work items from Azure DevOps...") ++
      (if (fetch_work_items env.source
            (if force_full_sync then none else env.lastSyncMeta)).isEmpty then
        cbIf hasCb (mkCall "complete" 100 100 "No new items to sync")
      else
        cbIf hasCb (mkCall "fetched" 20 100
          ("Fetched " ++ toString (fetch_work_items env.source
            (if force_full_sync then none else env.lastSyncMeta)).length ++ " work items")) ++
        ((chunks batch_size (fetch_work_items env.source
            (if force_full_sync then none else env.lastSyncMeta))).foldl
          (syncBatchStep env hasCb (fetch_work_items env.source
            (if force_full_sync then none else env.lastSyncMeta)).length)
          { synced := 0, ops := [], events := [] }).events ++
        (if force_full_sync then
          cbIf hasCb (mkCall "cleanup" 95 100 "Cleaning up deleted work items...")
        else [])) := by
  unfold sync
  by_cases hw : (fetch_work_items env.source
      (if force_full_sync then none else env.lastSyncMeta)).isEmpty <;>
    simp [hw]

/-- C2 counterexample: in a concrete run with a callback supplied, an
invocation passes four arguments, not three — refuting the claim that every
invocation passes exactly three arguments. -/
theorem progress_callback_three_args_counterexample :
    ¬ (∀ e ∈ (sync c1Env false 50 true).events, e.length = 3) := by
  decide

/-- C2 (amended): with a progress callback supplied, every invocation passes
exactly the four positional arguments `(phase, current, total, message)` with
`total = 100` and `0 ≤ current ≤ 100`; the callback's return value is never
consumed (the model records the argument list only). -/
theorem progress_callback_four_args_bounded (env : SyncEnv) (force_full_sync : Bool)
    (batch_size : Nat) :
    ∀ e ∈ (sync env force_full_sync batch_size true).events, goodEvent e := by
  intro e he
  rw [sync_events_eq] at he
  rcases List.mem_append.1 he with h1 | htail
  · rcases List.mem_append.1 h1 with h2 | hfetch
    · rcases List.mem_append.1 h2 with hinit | hidx
      · rw [mem_cbIf hinit]; exact goodEvent_mkCall _ _ _ (by omega)
      · by_cases hie : env.indexExists = true
        · rw [if_pos hie] at hidx
          simp at hidx
        · rw [if_neg hie] at hidx
          rw [mem_cbIf hidx]
          exact goodEvent_mkCall _ _ _ (by omega)
    · rw [mem_cbIf hfetch]; exact goodEvent_mkCall _ _ _ (by omega)
  · by_cases hw : (fetch_work_items env.source
        (if force_full_sync then none else env.lastSyncMeta)).isEmpty
    · rw [if_pos hw] at htail
      rw [mem_cbIf htail]; exact goodEvent_mkCall _ _ _ (by omega)
    · rw [if_neg hw] at htail
      rcases List.mem_append.1 htail with h3 | hclean
      · rcases List.mem_append.1 h3 with hfetched | hloop
        · rw [mem_cbIf hfetched]; exact goodEvent_mkCall _ _ _ (by omega)
        · refine loop_events_good env true _ _ _ (by intro e' he'; simp at he') ?_ e hloop
          rw [chunks_sum_length]
          dsimp only
          omega
      · by_cases hff : force_full_sync = true
        · rw [if_pos hff] at hclean
          rw [mem_cbIf hclean]
          exact goodEvent_mkCall _ _ _ (by omega)
        · rw [if_neg hff] at hclean
          simp at hclean

/-- C2 witness: the amended statement applied to a concrete run and its first
recorded invocation. -/
theorem progress_callback_four_args_bounded_witness :
    goodEvent (mkCall "init" 0 100 "Initializing sync...") :=
  progress_callback_four_args_bounded c1Env false 50
    (mkCall "init" 0 100 "Initializing sync...") (by decide)

def Op.isDeleteDocs : Op → Bool
  | Op.deleteDocs _ => true
  | _ => false

theorem deletions_eq_empty (ops : List Op) (h : ∀ op ∈ ops, Op.isDeleteDocs op = false) :
    deletions ops = ∅ := by
  induction ops with
  | nil => rfl
  | cons op rest ih =>
    have hrest := ih (fun o ho => h o (List.mem_cons_of_mem _ ho))
    cases op with
    | deleteDocs s => exact absurd (h _ (List.mem_cons_self _ _)) (by simp [Op.isDeleteDocs])
    | _ => simpa [deletions] using hrest

theorem deletions_append (a b : List Op) :
    deletions (a ++ b) = deletions a ∪ deletions b := by
  induction a with
  | nil => simp [deletions]
  | cons op rest ih =>
    cases op <;> simp [deletions, ih, Finset.union_assoc]

theorem deletions_flatMap_batchOps (env : SyncEnv) (bs : List (List WorkItem)) :
    deletions (bs.flatMap (batchOps env)) = ∅ := by
  apply deletions_eq_empty
  intro op hop
  rcases List.mem_flatMap.1 hop with ⟨b, _, hb⟩
  unfold batchOps at hb
  rcases List.mem_append.1 hb with hb' | hb'
  · revert hb'
    unfold embedCallOps
    split
    · simp
    · intro hb'
      rcases List.mem_map.1 hb' with ⟨_, _, rfl⟩
      rfl
  · rw [List.mem_singleton.1 hb']
    rfl

/-- The identifiers deleted by one sync run: the index-minus-source difference
when reconciliation runs (force-full with a non-empty fetch), nothing
otherwise. -/
theorem sync_deletions (env : SyncEnv) (force_full_sync : Bool) (batch_size : Nat)
    (hasCb : Bool) :
    deletions ((sync env force_full_sync batch_size hasCb).ops) =
      if force_full_sync = true ∧
          (fetch_work_items env.source
            (if force_full_sync then none else env.lastSyncMeta)).isEmpty = false then
        env.indexIds \ env.sourceIds
      else ∅ := by
  rw [sync_ops_eq]
  rw [deletions_append, deletions_append, deletions_append]
  have h1 : deletions [Op.checkIndexExists] = ∅ := rfl
  have h2 : deletions (if env.indexExists then [] else [Op.createIndex]) = ∅ := by
    split <;> rfl
  have h3 : deletions [Op.readSyncMetadata,
      Op.fetchItems (if force_full_sync then none else env.lastSyncMeta)] = ∅ := rfl
  rw [h1, h2, h3]
  by_cases hw : (fetch_work_items env.source
      (if force_full_sync then none else env.lastSyncMeta)).isEmpty
  · rw [if_pos hw]
    have : deletions [Op.countItems] = ∅ := rfl
    rw [this]
    simp [hw]
  · rw [if_neg hw]
    rw [deletions_append, deletions_append, deletions_flatMap_batchOps]
    have h5 : deletions [Op.countItems, Op.writeMetadata env.now env.storeCount] = ∅ := rfl
    rw [h5]
    by_cases hff : force_full_sync = true
    · rw [if_pos hff]
      rw [deletions_append]
      have h6 : deletions [Op.fetchSourceIds, Op.fetchIndexIds] = ∅ := rfl
      rw [h6]
      have hcond : force_full_sync = true ∧
          (fetch_work_items env.source
            (if force_full_sync then none else env.lastSyncMeta)).isEmpty = false :=
        ⟨hff, by simpa using hw⟩
      rw [if_pos hcond]
      by_cases hd : env.indexIds \ env.sourceIds = ∅
      · rw [if_pos hd]
        have : deletions ([] : List Op) = ∅ := rfl
        rw [this, hd]
        simp
      · rw [if_neg hd]
        have h7 : deletions [Op.deleteDocs (env.indexIds \ env.sourceIds)] =
            env.indexIds \ env.sourceIds := by
          simp [deletions]
        rw [h7]
        simp
    · rw [if_neg hff]
      have h8 : deletions ([] : List Op) = ∅ := rfl
      rw [h8]
      rw [if_neg (fun hc => hff hc.1)]
      simp

/-- C5 (amended): deletion reconciliation runs only on a force-full sync whose
item fetch returned at least one item; when it runs it deletes from the Index
Store exactly the native IDs present in the Index Store but absent from the
Item Source, and a delta sync (`forceFull` false) deletes nothing.  (When a
force-full sync fetches zero items, the early return skips reconciliation.) -/
theorem deletion_reconciliation_full_sync_only (env : SyncEnv) (batch_size : Nat)
    (hasCb : Bool) :
    (fetch_work_items env.source none ≠ [] →
      deletions ((sync env true batch_size hasCb).ops) = env.indexIds \ env.sourceIds) ∧
    deletions ((sync env false batch_size hasCb).ops) = ∅ := by
  constructor
  · intro hne
    rw [sync_deletions]
    rw [if_pos ⟨rfl, by simpa [List.isEmpty_iff] using hne⟩]
  · rw [sync_deletions]
    simp

/-- Concrete force-full environment whose fetch is empty while the Index Store
still holds an identifier absent from the Item Source. -/
def c5Env : SyncEnv :=
  { indexExists := true, lastSyncMeta := none, source := [],
    embedApi := fun _ => none, truncate := id,
    sourceIds := ∅, indexIds := {"1"}, storeCount := 0, now := 0 }

/-- C5 counterexample: a force-full sync whose item fetch returns zero items
performs no deletion at all even though the Index Store contains an ID absent
from the Item Source — refuting "deletion reconciliation runs if and only if
forceFull is true". -/
theorem deletion_reconciliation_counterexample :
    deletions ((sync c5Env true 50 false).ops) = ∅ ∧
    c5Env.indexIds \ c5Env.sourceIds ≠ ∅ := by
  decide

/-- Concrete force-full environment with a non-empty fetch and a stale index
identifier. -/
def c5FullEnv : SyncEnv :=
  { indexExists := true, lastSyncMeta := none,
    source := [⟨"p_1", "1", "t", some 5⟩],
    embedApi := fun _ => none, truncate := id,
    sourceIds := {"2"}, indexIds := {"2", "3"}, storeCount := 1, now := 0 }

/-- C5 witness: the amended statement applied to a concrete environment. -/
theorem deletion_reconciliation_full_sync_only_witness :
    deletions ((sync c5FullEnv true 50 false).ops) =
      c5FullEnv.indexIds \ c5FullEnv.sourceIds ∧
    deletions ((sync c5FullEnv false 50 false).ops) = ∅ :=
  ⟨(deletion_reconciliation_full_sync_only c5FullEnv 50 false).1 (by decide),
   (deletion_reconciliation_full_sync_only c5FullEnv 50 false).2⟩

/-- C9: the presence or absence of a progress callback never affects control
flow: for identical collaborator responses, a run with a callback and a run
without one produce the identical return value and the identical sequence of
Item Source, Vectorizer and Index Store operations. -/
theorem progress_callback_inert (env : SyncEnv) (force_full_sync : Bool) (batch_size : Nat) :
    (sync env force_full_sync batch_size true).result
      = (sync env force_full_sync batch_size false).result ∧
    (sync env force_full_sync batch_size true).ops
      = (sync env force_full_sync batch_size false).ops := by
  constructor
  · rw [sync_result_eq, sync_result_eq]
  · rw [sync_ops_eq, sync_ops_eq]

/-- C7: for every non-empty retrieval result set, the assembled context and
the references block list the retrieved items as a permutation of the result
set sorted in ascending numeric order of their native work-item IDs,
independent of retrieval score. -/
theorem context_and_references_sorted_by_id (documents : List Doc)
    (_h : documents ≠ []) :
    ∃ l : List Doc, documents.Perm l ∧ l.Sorted docLe ∧
      build_context documents = joinSep "\n\n---\n\n" (l.map renderContextItem) ∧
      build_references documents = joinSep "\n" (l.map renderReference) :=
  ⟨sortDocsById documents,
   (List.perm_insertionSort docLe documents).symm,
   List.sorted_insertionSort docLe documents,
   rfl, rfl⟩

/-- Concrete retrieval result with only a native ID set. -/
def docOfId (i : String) : Doc := { id := "p_" ++ i, work_item_id := i }

/-- C7 witness: the theorem applied to the result set with native IDs
`[57, 12, 200]`, whose rendered order is `12, 57, 200`. -/
theorem context_and_references_sorted_by_id_witness :
    (∃ l : List Doc, [docOfId "57", docOfId "12", docOfId "200"].Perm l ∧
      l.Sorted docLe ∧
      build_context [docOfId "57", docOfId "12", docOfId "200"]
        = joinSep "\n\n---\n\n" (l.map renderContextItem) ∧
      build_references [docOfId "57", docOfId "12", docOfId "200"]
        = joinSep "\n" (l.map renderReference)) ∧
    (sortDocsById [docOfId "57", docOfId "12", docOfId "200"]).map Doc.work_item_id
      = ["12", "57", "200"] :=
  ⟨context_and_references_sorted_by_id [docOfId "57", docOfId "12", docOfId "200"]
      (by simp),
   by decide⟩

theorem toList_infix_cons (c : Char) (l : List Char) : l <:+: c :: l :=
  ⟨[c], [], by simp⟩

/-- C8: in the bug-triage sub-flow, whenever the similar-bugs retrieval
returns zero items the assembled context contains the explicit
"No similar bugs found." line, and whenever the related-requirements
retrieval returns zero items it contains the explicit
"No directly related requirements found." line; and every successful triage
outcome assembles its context through exactly this template, so neither
section is ever silently omitted. -/
theorem triage_none_found_lines (bug_details : Option Doc) (bug_description : String)
    (similar_bugs requirements : List Doc) :
    (similar_bugs = [] →
      "No similar bugs found.".toList <:+:
        (triageContext bug_details bug_description similar_bugs requirements).toList) ∧
    (requirements = [] →
      "No directly related requirements found.".toList <:+:
        (triageContext bug_details bug_description similar_bugs requirements).toList) ∧
    (∀ (env : RagEnv) (question : String) (o : TriageOutcome),
      handle_bug_triage env question = TriageResult.ok o →
      o.context = triageContext o.bug_details o.bug_description o.similar_bugs o.requirements) := by
  refine ⟨?_, ?_, ?_⟩
  · intro hs
    subst hs
    have hpart : ("\nNo similar bugs found." : String) ∈
        (triageCurrentBugPart bug_details bug_description ::
          (triageSimilarParts [] ++ triageRequirementParts requirements)) := by
      simp [triageSimilarParts]
    have h1 := infix_joinSep "\n" _ _ hpart
    refine List.IsInfix.trans ?_ h1
    exact toList_infix_cons '\n' ("No similar bugs found.".toList)
  · intro hr
    subst hr
    have hpart : ("\n\nNo directly related requirements found." : String) ∈
        (triageCurrentBugPart bug_details bug_description ::
          (triageSimilarParts similar_bugs ++ triageRequirementParts [])) := by
      simp [triageRequirementParts]
    have h1 := infix_joinSep "\n" _ _ hpart
    refine List.IsInfix.trans ?_ h1
    exact ((toList_infix_cons '\n'
        ("No directly related requirements found.".toList)).trans
      (toList_infix_cons '\n' _))
  · intro env question o h
    unfold handle_bug_triage at h
    dsimp only at h
    split at h
    next idf hx =>
      split at h
      next => exact absurd h (by simp)
      next b tail hb =>
        split at h
        next => exact absurd h (by simp)
        next =>
          unfold mkTriage at h
          injection h with h2
          subst h2
          rfl
    next hx =>
      split at h
      next => exact absurd h (by simp)
      next =>
        unfold mkTriage at h
        injection h with h2
        subst h2
        rfl

/-- C8 witness: both absence lines appear in a concrete triage context with
empty retrievals. -/
theorem triage_none_found_lines_witness :
    "No similar bugs found.".toList <:+: (triageContext none "crash" [] []).toList ∧
    "No directly related requirements found.".toList <:+:
      (triageContext none "crash" [] []).toList :=
  ⟨(triage_none_found_lines none "crash" [] []).1 rfl,
   (triage_none_found_lines none "crash" [] []).2.1 rfl⟩

/-- Filter expression assembled by `RAGService.query` from the three
extractors. -/
def queryFilterExpr (question : String) : Filt :=
  build_filter_expr (extract_work_item_filter question)
    (extract_work_item_type_filter question) (extract_comprehensive_filters question)

/-- C6: for every question classified as a count/list query with at least one
structured filter active that retrieves at least one document, an exact
filtered count is obtained from the Index Store's count request (not from the
length of the retrieved page); without an itemized-listing keyword the
assembled context is the count directive block alone (no item bodies), and
with one the count directive is prepended above the rendered item bodies. -/
theorem count_query_exact_count_context (env : RagEnv) (question : String) (top_k : Nat)
    (hg : is_greeting_or_conversational question = false)
    (ht : is_bug_triage_query question = false)
    (hc : is_count_or_list_query question = true)
    (hf : (extract_work_item_filter question).isSome = true ∨
      (extract_work_item_type_filter question).isSome = true ∨
      (extract_comprehensive_filters question).isSome = true)
    (hd : env.hybridSearch question (env.embed question) 50 (queryFilterExpr question) ≠ []) :
    query env question top_k = QueryResult.answer
      { filter_expr := queryFilterExpr question
        search_top_k := 50
        docs := env.hybridSearch question (env.embed question) 50 (queryFilterExpr question)
        countRequested := true
        actual_count := some (env.filteredCount (queryFilterExpr question))
        context :=
          if !wantsList question then
            countOnlyContext (env.filteredCount (queryFilterExpr question))
          else
            countWithItemsContext (env.filteredCount (queryFilterExpr question))
              (env.hybridSearch question (env.embed question) 50 (queryFilterExpr question))
              (build_context
                (env.hybridSearch question (env.embed question) 50 (queryFilterExpr question)))
        references := build_references
          (env.hybridSearch question (env.embed question) 50 (queryFilterExpr question))
        appendReferences := wantsList question } := by
  have hOr : ((extract_work_item_type_filter question).isSome ||
      (extract_work_item_filter question).isSome ||
      (extract_comprehensive_filters question).isSome) = true := by
    rcases hf with h | h | h <;> simp [h]
  have hde : (env.hybridSearch question (env.embed question) 50
      (queryFilterExpr question)).isEmpty = false := by
    rw [List.isEmpty_eq_false]
    exact hd
  unfold query
  rw [if_neg (by simp [hg]), if_neg (by simp [ht])]
  unfold queryFilterExpr at hde ⊢
  simp only [hc, if_true, hOr, hde, Bool.true_and, Bool.not_true, Bool.or_false,
    Bool.false_eq_true, if_false]

/-- Concrete retrieval environment for the orchestrator witnesses. -/
def ragDocW : Doc :=
  { id := "p_7", work_item_id := "7", title := "T", work_item_type := "Bug", state := "Active" }

def ragEnvW : RagEnv :=
  { embed := fun _ => []
    hybridSearch := fun _ _ _ _ => [ragDocW]
    filteredCount := fun _ => 42 }

/-- C6 witness: the theorem applied to "how many bugs" (count-only context)
and to "list all bugs" (count directive prepended above item bodies). -/
theorem count_query_exact_count_context_witness :
    (query ragEnvW "how many bugs" 5 = QueryResult.answer
      { filter_expr := queryFilterExpr "how many bugs"
        search_top_k := 50
        docs := ragEnvW.hybridSearch "how many bugs" (ragEnvW.embed "how many bugs") 50
          (queryFilterExpr "how many bugs")
        countRequested := true
        actual_count := some (ragEnvW.filteredCount (queryFilterExpr "how many bugs"))
        context :=
          if !wantsList "how many bugs" then
            countOnlyContext (ragEnvW.filteredCount (queryFilterExpr "how many bugs"))
          else
            countWithItemsContext (ragEnvW.filteredCount (queryFilterExpr "how many bugs"))
              (ragEnvW.hybridSearch "how many bugs" (ragEnvW.embed "how many bugs") 50
                (queryFilterExpr "how many bugs"))
              (build_context (ragEnvW.hybridSearch "how many bugs"
                (ragEnvW.embed "how many bugs") 50 (queryFilterExpr "how many bugs")))
        references := build_references (ragEnvW.hybridSearch "how many bugs"
          (ragEnvW.embed "how many bugs") 50 (queryFilterExpr "how many bugs"))
        appendReferences := wantsList "how many bugs" }) ∧
    wantsList "how many bugs" = false ∧
    (query ragEnvW "list all bugs" 5 = QueryResult.answer
      { filter_expr := queryFilterExpr "list all bugs"
        search_top_k := 50
        docs := ragEnvW.hybridSearch "list all bugs" (ragEnvW.embed "list all bugs") 50
          (queryFilterExpr "list all bugs")
        countRequested := true
        actual_count := some (ragEnvW.filteredCount (queryFilterExpr "list all bugs"))
        context :=
          if !wantsList "list all bugs" then
            countOnlyContext (ragEnvW.filteredCount (queryFilterExpr "list all bugs"))
          else
            countWithItemsContext (ragEnvW.filteredCount (queryFilterExpr "list all bugs"))
              (ragEnvW.hybridSearch "list all bugs" (ragEnvW.embed "list all bugs") 50
                (queryFilterExpr "list all bugs"))
              (build_context (ragEnvW.hybridSearch "list all bugs"
                (ragEnvW.embed "list all bugs") 50 (queryFilterExpr "list all bugs")))
        references := build_references (ragEnvW.hybridSearch "list all bugs"
          (ragEnvW.embed "list all bugs") 50 (queryFilterExpr "list all bugs"))
        appendReferences := wantsList "list all bugs" }) ∧
    wantsList "list all bugs" = true :=
  ⟨count_query_exact_count_context ragEnvW "how many bugs" 5 (by decide) (by decide)
      (by decide) (Or.inr (Or.inl (by decide))) (by decide),
   by decide,
   count_query_exact_count_context ragEnvW "list all bugs" 5 (by decide) (by decide)
      (by decide) (Or.inr (Or.inl (by decide))) (by decide),
   by decide⟩

/-! ### Helper lemmas for the metadata singleton (C10) -/

theorem filter_key_of_not_any (store : List Doc) (k : String)
    (h : store.any (fun x => x.id == k) = false) :
    store.filter (fun d => d.id == k) = [] := by
  induction store with
  | nil => rfl
  | cons d rest ih =>
    simp only [List.any_cons, Bool.or_eq_false_iff] at h
    simp [List.filter_cons, h.1, ih h.2]

theorem map_id_replace (store : List Doc) (nd : Doc) (k : String) (hk : nd.id = k) :
    (store.map (fun x => if x.id == k then nd else x)).map Doc.id = store.map Doc.id := by
  induction store with
  | nil => rfl
  | cons d rest ih =>
    simp only [List.map_cons, ih]
    congr 1
    by_cases hd : (d.id == k) = true
    · rw [if_pos hd, hk]
      exact (eq_of_beq hd).symm
    · rw [if_neg hd]

theorem upsertOne_nodup (store : List Doc) (nd : Doc)
    (h : (store.map Doc.id).Nodup) : ((upsertOne store nd).map Doc.id).Nodup := by
  unfold upsertOne
  split
  · rw [map_id_replace store nd nd.id rfl]
    exact h
  · rename_i hany
    rw [List.map_append]
    simp only [List.map_cons, List.map_nil]
    refine List.Nodup.append h (List.nodup_singleton _) ?_
    intro a ha hb
    rw [List.mem_singleton.1 hb] at ha
    rcases List.mem_map.1 ha with ⟨x, hx, hxid⟩
    exact hany (List.any_eq_true.2 ⟨x, hx, by rw [hxid]; exact beq_self_eq_true nd.id⟩)

theorem filter_key_map_replace (nd : Doc) (k : String) (hk : nd.id = k) :
    ∀ store : List Doc, (store.map Doc.id).Nodup →
      store.any (fun x => x.id == k) = true →
      (store.map (fun x => if x.id == k then nd else x)).filter (fun d => d.id == k)
        = [nd] := by
  intro store
  induction store with
  | nil => intro _ hany; simp at hany
  | cons d rest ih =>
    intro hnd hany
    rw [List.map_cons, List.nodup_cons] at hnd
    by_cases hd : (d.id == k) = true
    · rw [List.map_cons, if_pos hd]
      have hndk : (nd.id == k) = true := by rw [hk]; exact beq_self_eq_true k
      simp only [List.filter_cons, hndk, if_true]
      have hrest : rest.any (fun x => x.id == k) = false := by
        rw [List.any_eq_false]
        intro x hx hxk
        exact hnd.1 (List.mem_map.2 ⟨x, hx, by rw [eq_of_beq hxk, ← eq_of_beq hd]⟩)
      have hmapeq : rest.map (fun x => if x.id == k then nd else x) = rest := by
        conv_rhs => rw [← List.map_id rest]
        apply List.map_congr_left
        intro x hx
        rw [if_neg (fun hxk => (by simpa using hrest : ∀ y ∈ rest, ¬(y.id == k) = true) x hx hxk)]
        rfl
      rw [hmapeq, filter_key_of_not_any rest k hrest]
    · rw [List.map_cons, if_neg hd]
      have hd' : (d.id == k) = false := by simpa using hd
      simp only [List.filter_cons, hd', Bool.false_eq_true, if_false]
      have hany' : rest.any (fun x => x.id == k) = true := by
        rcases List.any_eq_true.1 hany with ⟨x, hx, hxk⟩
        rcases List.mem_cons.1 hx with rfl | hx'
        · exact absurd hxk (by simpa using hd)
        · exact List.any_eq_true.2 ⟨x, hx', hxk⟩
      exact ih hnd.2 hany'

theorem filter_base_map_replace (nd : Doc) (hnd : baseFilt.eval nd = false) (k : String) :
    ∀ store : List Doc, (∀ d ∈ store, d.id = k → baseFilt.eval d = false) →
      (store.map (fun x => if x.id == k then nd else x)).filter baseFilt.eval
        = store.filter baseFilt.eval := by
  intro store
  induction store with
  | nil => intro _; rfl
  | cons d rest ih =>
    intro h
    have ih' := ih (fun x hx => h x (List.mem_cons_of_mem _ hx))
    rw [List.map_cons]
    by_cases hd : (d.id == k) = true
    · rw [if_pos hd]
      have hde : baseFilt.eval d = false := h d (List.mem_cons_self _ _) (eq_of_beq hd)
      rw [List.filter_cons_of_neg (by simpa using hnd),
        List.filter_cons_of_neg (by simpa using hde)]
      exact ih'
    · rw [if_neg hd]
      by_cases he : baseFilt.eval d = true
      · rw [List.filter_cons_of_pos he, List.filter_cons_of_pos he, ih']
      · rw [List.filter_cons_of_neg he, List.filter_cons_of_neg he]
        exact ih'

theorem build_filter_expr_eval_base (wif tf cf : Option Filt) (d : Doc)
    (h : (build_filter_expr wif tf cf).eval d = true) : baseFilt.eval d = true := by
  unfold build_filter_expr at h
  cases wif <;> cases tf <;> cases cf <;>
    simp only [Filt.andF, Bool.and_eq_true] at h <;> tauto

theorem triageBugFetchFilter_eval_base (idf : Filt) (d : Doc)
    (h : (triageBugFetchFilter idf).eval d = true) : baseFilt.eval d = true := by
  simp only [triageBugFetchFilter, Bool.and_eq_true] at h
  exact h.1.1

theorem triageSimilarFilter_eval_base (idf : Option Filt) (d : Doc)
    (h : (triageSimilarFilter idf).eval d = true) : baseFilt.eval d = true := by
  cases idf <;> simp only [triageSimilarFilter, Bool.and_eq_true] at h
  · exact h.1
  · exact h.1.1

theorem triageReqFilter_eval_base (d : Doc)
    (h : triageReqFilter.eval d = true) : baseFilt.eval d = true := by
  simp only [triageReqFilter, Bool.and_eq_true] at h
  exact h.1

/-- Documents surfaced by a query outcome: the retrieved page of the general
path, and the fetched bug, similar bugs and requirements of the triage path. -/
def queryDocs : QueryResult → List Doc
  | QueryResult.answer o => o.docs
  | QueryResult.triage (TriageResult.ok t) =>
      t.bug_details.toList ++ t.similar_bugs ++ t.requirements
  | _ => []

/-- Contract of the Index Store's search capability: every returned document
satisfies the supplied filter. -/
def oracleRespectsFilters (env : RagEnv) : Prop :=
  ∀ s v k f, ∀ d ∈ env.hybridSearch s v k f, f.eval d = true

theorem query_docs_satisfy_base (env : RagEnv) (hresp : oracleRespectsFilters env)
    (question : String) (top_k : Nat) :
    ∀ d ∈ queryDocs (query env question top_k), baseFilt.eval d = true := by
  intro d hd
  unfold query at hd
  by_cases hg : is_greeting_or_conversational question = true
  · rw [if_pos hg] at hd
    simp [queryDocs] at hd
  · rw [if_neg hg] at hd
    by_cases ht : is_bug_triage_query question = true
    · rw [if_pos ht] at hd
      unfold handle_bug_triage at hd
      dsimp only at hd
      split at hd
      next idf hx =>
        generalize hb : env.hybridSearch question (env.embed question) 1
          (triageBugFetchFilter idf) = bugs at hd
        split at hd
        next => simp [queryDocs] at hd
        next b tail hbugs =>
          split at hd
          next => simp [queryDocs] at hd
          next =>
            unfold mkTriage at hd
            simp only [queryDocs, Option.toList_some, List.mem_append,
              List.mem_singleton, List.cons_append, List.nil_append,
              List.mem_cons] at hd
            rcases hd with rfl | hd'
            · have hmem : d ∈ env.hybridSearch question (env.embed question) 1
                  (triageBugFetchFilter idf) := by
                rw [hb]
                exact List.mem_cons_self _ _
              exact triageBugFetchFilter_eval_base idf d (hresp _ _ _ _ d hmem)
            · rcases hd' with hsim | hreq
              · exact triageSimilarFilter_eval_base _ d (hresp _ _ _ _ d hsim)
              · exact triageReqFilter_eval_base d (hresp _ _ _ _ d hreq)
      next hx =>
        split at hd
        next => simp [queryDocs] at hd
        next =>
          unfold mkTriage at hd
          simp only [queryDocs, Option.toList_none, List.mem_append,
            List.nil_append] at hd
          rcases hd with hsim | hreq
          · exact triageSimilarFilter_eval_base _ d (hresp _ _ _ _ d hsim)
          · exact triageReqFilter_eval_base d (hresp _ _ _ _ d hreq)
    · rw [if_neg ht] at hd
      dsimp only at hd
      repeat' split at hd
      all_goals simp only [queryDocs] at hd
      all_goals
        first
          | exact absurd hd (List.not_mem_nil d)
          | exact build_filter_expr_eval_base _ _ _ d (hresp _ _ _ _ d hd)

/-- C10: every metadata write uses the single constant key "sync-metadata"
with `is_metadata` true, so a key-unique store holds at most one metadata
record, overwritten in place rather than appended; the base predicate
excluding metadata records rejects that record, so the store's item count
request never counts it, a metadata-flagged write never changes the item
count, and every retrieval issued by the query orchestrator (whose filters
all AND the base predicate) never returns it. -/
theorem metadata_singleton_and_excluded :
    (∀ t c, (syncMetadataDoc t c).id = METADATA_DOC_ID ∧
      (syncMetadataDoc t c).is_metadata = some true) ∧
    (∀ (store : List Doc) (t c : Nat), (store.map Doc.id).Nodup →
      ((update_sync_metadata store t c).map Doc.id).Nodup ∧
      (update_sync_metadata store t c).filter (fun d => d.id == METADATA_DOC_ID)
        = [syncMetadataDoc t c]) ∧
    (∀ t c, baseFilt.eval (syncMetadataDoc t c) = false) ∧
    (∀ d : Doc, baseFilt.eval d = true → d.is_metadata ≠ some true) ∧
    (∀ (store : List Doc) (t c : Nat),
      (∀ d ∈ store, d.id = METADATA_DOC_ID → d.is_metadata = some true) →
      get_work_item_count (update_sync_metadata store t c) = get_work_item_count store) ∧
    (∀ env : RagEnv, oracleRespectsFilters env → ∀ (question : String) (top_k : Nat),
      ∀ d ∈ queryDocs (query env question top_k), d.is_metadata ≠ some true) := by
  have hbase_excl : ∀ d : Doc, baseFilt.eval d = true → d.is_metadata ≠ some true := by
    intro d h heq
    rw [show baseFilt.eval d = (d.is_metadata == some false || d.is_metadata == none)
      from rfl, heq] at h
    simp at h
  refine ⟨fun t c => ⟨rfl, rfl⟩, ?_, fun t c => rfl, hbase_excl, ?_, ?_⟩
  · intro store t c h
    have hid : (syncMetadataDoc t c).id = METADATA_DOC_ID := rfl
    refine ⟨upsertOne_nodup store _ h, ?_⟩
    unfold update_sync_metadata upsertOne
    rw [hid]
    split
    · rename_i hany
      exact filter_key_map_replace (syncMetadataDoc t c) METADATA_DOC_ID rfl store h hany
    · rename_i hany
      rw [List.filter_append, filter_key_of_not_any store _ (by simpa using hany)]
      simp only [List.nil_append, List.filter_cons, List.filter_nil]
      rw [if_pos (show ((syncMetadataDoc t c).id == METADATA_DOC_ID) = true from rfl)]
  · intro store t c h
    have hid : (syncMetadataDoc t c).id = METADATA_DOC_ID := rfl
    unfold get_work_item_count update_sync_metadata upsertOne
    rw [hid]
    split
    · rw [filter_base_map_replace (syncMetadataDoc t c) rfl METADATA_DOC_ID store
        (fun d hd hdid => by rw [show baseFilt.eval d =
          (d.is_metadata == some false || d.is_metadata == none) from rfl, h d hd hdid]; rfl)]
    · rw [List.filter_append]
      simp only [List.filter_cons, List.filter_nil]
      have hbf : (baseFilt.eval (syncMetadataDoc t c)) = false := rfl
      rw [hbf]
      simp
  · intro env hresp question top_k d hd
    exact hbase_excl d (query_docs_satisfy_base env hresp question top_k d hd)

/-- Retrieval environment whose search oracle filters a fixed store, hence
respects filters. -/
def ragEnvResp : RagEnv :=
  { embed := fun _ => []
    hybridSearch := fun _ _ _ f => [ragDocW].filter (fun d => f.eval d)
    filteredCount := fun _ => 1 }

/-- C10 witness: the theorem applied to a concrete store and a concrete
filter-respecting retrieval environment. -/
theorem metadata_singleton_and_excluded_witness :
    (((update_sync_metadata [ragDocW] 3 1).map Doc.id).Nodup ∧
      (update_sync_metadata [ragDocW] 3 1).filter (fun d => d.id == METADATA_DOC_ID)
        = [syncMetadataDoc 3 1]) ∧
    get_work_item_count (update_sync_metadata [ragDocW] 3 1)
      = get_work_item_count [ragDocW] ∧
    ragDocW.is_metadata ≠ some true :=
  ⟨metadata_singleton_and_excluded.2.1 [ragDocW] 3 1 (by decide),
   metadata_singleton_and_excluded.2.2.2.2.1 [ragDocW] 3 1 (by decide),
   metadata_singleton_and_excluded.2.2.2.2.2 ragEnvResp
     (fun s v k f d hd => (List.mem_filter.1 hd).2) "how many bugs" 5 ragDocW (by decide)⟩
